import Mathlib

/-!
# S3FIFO with weighted eviction, a large-object queue and dynamic capacity planning

A shallow embedding of `libCacheSim/cache/eviction/S3FIFO.c`.

* The four sub-caches (`fifo`, `fifo_ghost`, `main_cache`, `large_cache`) are FIFO caches of
  the surrounding library.  Their code is not part of the policy file; they are modelled
  from the specification as bounded FIFO queues (`FIFO_cache`).
* A `double` is the rational number it denotes.  The arithmetic of the ratios and of the
  tier budgets is rounded after every operation as IEEE 754 binary64 rounds it
  (`round_double`: 53 significant bits, ties to even); the exponent range is not modelled,
  so infinities, NaN and subnormal numbers do not occur (`in_double_range` names the inputs
  for which the planner stays clear of them).  The scorer is kept exact: weights, reload
  cost and scores are rationals and the libm function `log` is a parameter
  `log : Nat → ℚ` of every function that scores.
* Pointers into a queue are modelled by position: the object returned by a lookup is the
  first object of the queue with the requested id, the eviction candidate is the last
  object of the queue, the object returned by an insertion is the first one.
* `while` loops whose trip count is not bounded by the data carry a fuel argument and
  return `none` when the fuel runs out.
-/

/-! ## Requests and cached objects -/

/-- A request of the trace: object id, object size in bytes, reload cost. -/
structure request_t where
  obj_id : Nat
  obj_size : Nat
  reloadCost : ℚ
deriving DecidableEq

/-- A cached object: the fields of `cache_obj_t` the policy reads or writes.
`freq` is the counter `S3FIFO.freq`. -/
structure cache_obj_t where
  obj_id : Nat
  obj_size : Nat
  freq : Int
  reloadCost : ℚ
deriving DecidableEq

/-- The request rebuilt from a cached object (`obj_to_evict->req_local` in the source). -/
def req_local (obj : cache_obj_t) : request_t :=
  { obj_id := obj.obj_id, obj_size := obj.obj_size, reloadCost := obj.reloadCost }

/-- Width of the frequency counter. The declaration of `S3FIFO.freq` is in a header that is
not part of the policy file; the library declares it as a 32-bit signed integer. -/
def FREQ_BITS : Nat := 32

/-- The statement `obj->S3FIFO.freq += 1` on a signed counter of `FREQ_BITS` bits:
the source adds one with no clamp, so the result is reduced to the signed range. -/
def freq_incr (f : Int) : Int := Int.bmod (f + 1) (2 ^ FREQ_BITS)

/-! ## The bounded FIFO tier (external collaborator) -/

/-- Modelled from the spec: the Bounded Tier, "a capacity-limited ordered container
supporting insert, lookup, removal, peek eviction candidate, occupied-size query, and
dynamic resize". `cache_size` is the budget in bytes; `q` is the queue, newest object
first, so that the eviction candidate (the oldest resident) is the last element. -/
structure FIFO_cache where
  cache_size : Int
  q : List cache_obj_t
deriving DecidableEq

/-- Modelled from the spec: the Bounded Tier constructor `FIFO_init`, an empty tier of
the given budget. -/
def FIFO_init (cache_size : Int) : FIFO_cache := { cache_size := cache_size, q := [] }

/-- The ids held by a tier, newest first. -/
def FIFO_ids (t : FIFO_cache) : List Nat := t.q.map (fun o => o.obj_id)

/-- Modelled from the spec: the Bounded Tier "lookup" (`find`): the resident object with
the given id, if any. It does not reposition or modify anything. -/
def FIFO_find (t : FIFO_cache) (id : Nat) : Option cache_obj_t :=
  t.q.find? (fun o => o.obj_id == id)

/-- Modelled from the spec: the Bounded Tier "insert": a new object built from the request
enters at the young end of the queue with a zeroed frequency counter. No capacity check is
made ("the caller has already guaranteed free capacity"). -/
def FIFO_insert (t : FIFO_cache) (req : request_t) : FIFO_cache :=
  { t with q := { obj_id := req.obj_id, obj_size := req.obj_size, freq := 0,
                  reloadCost := req.reloadCost } :: t.q }

/-- Modelled from the spec: the Bounded Tier "removal" by id: the object that a lookup of
the id finds is taken out of the queue; the result says whether there was one. -/
def FIFO_remove (t : FIFO_cache) (id : Nat) : FIFO_cache × Bool :=
  match FIFO_find t id with
  | some _ => ({ t with q := t.q.eraseP (fun o => o.obj_id == id) }, true)
  | none => (t, false)

/-- Modelled from the spec: the Bounded Tier "peek eviction candidate" (`to_evict`): the
oldest resident. -/
def FIFO_to_evict (t : FIFO_cache) : Option cache_obj_t := t.q.getLast?

/-- Modelled from the spec: the Bounded Tier "occupied-size query": the bytes of the
residents ("capacity bookkeeping is never allowed to diverge from actual occupied bytes"). -/
def FIFO_get_occupied_byte (t : FIFO_cache) : Int :=
  (t.q.map (fun o => (o.obj_size : Int))).sum

/-- Modelled from the spec: the number of residents of a Bounded Tier (`get_n_obj`). -/
def FIFO_get_n_obj (t : FIFO_cache) : Int := (t.q.length : Int)

/-- Modelled from the spec: the Bounded Tier "dynamic resize" (`resize_cache`): the budget
is replaced, the residents stay. -/
def resize_cache (t : FIFO_cache) (new_size : Int) : FIFO_cache :=
  { t with cache_size := new_size }

/-- Modelled from the spec: the Bounded Tier's own eviction: the oldest resident leaves. -/
def FIFO_evict (t : FIFO_cache) : FIFO_cache := { t with q := t.q.dropLast }

/-- Modelled from the spec: "oldest ghost entries silently age out": the oldest residents
leave while the tier is not empty and has no room for `size` more bytes. The first
argument bounds the number of rounds; the length of the queue is enough. -/
def FIFO_evict_until : Nat → FIFO_cache → Nat → FIFO_cache
  | 0, t, _ => t
  | n + 1, t, size =>
    if FIFO_get_occupied_byte t + (size : Int) > t.cache_size ∧ t.q ≠ [] then
      FIFO_evict_until n (FIFO_evict t) size
    else t

/-- Modelled from the spec: the request entry point `get` of a Bounded Tier, used by the
policy to record an id in Ghost: an id already present is left alone; otherwise the
"Ghost insertion is capacity-bounded by the Ghost tier's own eviction discipline (oldest
ghost entries silently age out)" and the id is inserted. -/
def FIFO_get (t : FIFO_cache) (req : request_t) : FIFO_cache :=
  match FIFO_find t req.obj_id with
  | some _ => t
  | none => FIFO_insert (FIFO_evict_until t.q.length t req.obj_size) req

/-- Write through a pointer obtained from a lookup: the frequency counter of the first
object with the given id is replaced by `g` of it. -/
def update_found (g : Int → Int) (id : Nat) : List cache_obj_t → List cache_obj_t
  | [] => []
  | o :: rest =>
    if o.obj_id == id then { o with freq := g o.freq } :: rest
    else o :: update_found g id rest

/-- Write through the pointer returned by `to_evict`: the frequency counter of the oldest
object is replaced by `g` of it. -/
def update_tail (g : Int → Int) : List cache_obj_t → List cache_obj_t
  | [] => []
  | [o] => [{ o with freq := g o.freq }]
  | o :: p :: rest => o :: update_tail g (p :: rest)

/-- Write through the pointer returned by an insertion: the frequency counter of the
newest object is replaced by `g` of it. -/
def update_head (g : Int → Int) : List cache_obj_t → List cache_obj_t
  | [] => []
  | o :: rest => { o with freq := g o.freq } :: rest

/-! ## The policy state -/

/-- The policy instance: `cache->cache_size` together with the fields of
`S3FIFO_params_t` that the request path reads or writes. `fifo_ghost` is `none` when the
Ghost tier was not created. `size_threshold` is the size separating small from large
objects; the source reads it without declaring it, so it is a field set at creation. -/
structure cache_t where
  cache_size : Int
  fifo : FIFO_cache
  fifo_ghost : Option FIFO_cache
  main_cache : FIFO_cache
  large_cache : FIFO_cache
  hit_on_ghost : Bool
  ghost_size_ratio : ℚ
  s_ratio : ℚ
  m_ratio : ℚ
  lq_ratio : ℚ
  alpha : ℚ
  beta : ℚ
  gamma : ℚ
  size_threshold : Nat
deriving DecidableEq

/-- The retention threshold `SOME_SCORE_THRESHOLD`. -/
def SOME_SCORE_THRESHOLD : ℚ := 5

/-! ## Double arithmetic -/

/-- The power of two `2 ^ k` for an integer exponent. -/
def pow2 (k : Int) : ℚ :=
  if 0 ≤ k then ((2 ^ k.toNat : Nat) : ℚ) else 1 / ((2 ^ (-k).toNat : Nat) : ℚ)

/-- The binary logarithm of a natural number by repeated halving, at most `fuel` times. -/
def log2_fuel : Nat → Nat → Nat
  | 0, _ => 0
  | fuel + 1, n => if 2 ≤ n then log2_fuel fuel (n / 2) + 1 else 0

/-- The integer part of the binary logarithm of a natural number (`0` at `0`). -/
def nat_log2 (n : Nat) : Nat := log2_fuel n n

/-- The binary exponent of a nonzero rational: the `e` with `2 ^ e ≤ |x| < 2 ^ (e + 1)`. -/
def ilog2 (x : ℚ) : Int :=
  if pow2 ((nat_log2 x.num.natAbs : Int) - (nat_log2 x.den : Int)) ≤ |x| then
    (nat_log2 x.num.natAbs : Int) - (nat_log2 x.den : Int)
  else (nat_log2 x.num.natAbs : Int) - (nat_log2 x.den : Int) - 1

/-- Rounding to the nearest integer, a tie going to the even neighbour. -/
def round_half_even (m : ℚ) : Int :=
  if m - (⌊m⌋ : ℚ) < 1 / 2 then ⌊m⌋
  else if 1 / 2 < m - (⌊m⌋ : ℚ) then ⌊m⌋ + 1
  else if ⌊m⌋ % 2 = 0 then ⌊m⌋ else ⌊m⌋ + 1

/-- The `double` nearest to `x`: the result the machine stores for an operation whose exact
value is `x` (53 significant bits, round to nearest, ties to even).  The exponent is
unbounded here, so the result is the machine's whenever that one is a normal number. -/
def round_double (x : ℚ) : ℚ :=
  if x = 0 then 0
  else (round_half_even (x / pow2 (ilog2 x - 52)) : ℚ) * pow2 (ilog2 x - 52)

/-- A magnitude that keeps every intermediate result of the planner a normal `double`. -/
def in_double_range (x : ℚ) : Prop := 1 / 2 ^ 500 ≤ x ∧ x ≤ 2 ^ 500

instance (x : ℚ) : Decidable (in_double_range x) := by
  unfold in_double_range
  infer_instance

/-- The conversion `(int64_t)x` of a `double`: truncation toward zero. -/
def trunc_int64 (x : ℚ) : Int := Int.tdiv x.num (x.den : Int)

/-- The expression `(int64_t)(cache_size * ratio)` that sizes a tier: the integer capacity
is converted to a `double`, the product is rounded, the result is truncated. -/
def tier_budget (cache_size : Int) (ratio : ℚ) : Int :=
  trunc_int64 (round_double (round_double (cache_size : ℚ) * ratio))

/-! ## The scorer and the constructor -/

/-- The scoring formula `alpha * freq - beta * log(size) + gamma * reloadCost` over any
field, with the logarithm as a parameter. -/
def weighted_score {K : Type} [Field K] (log : Nat → K) (alpha beta gamma : K)
    (freq : K) (size : Nat) (reloadCost : K) : K :=
  alpha * freq - beta * log size + gamma * reloadCost

/-- The scorer `compute_weighted_score`; the three eviction routines inline the same
expression. -/
def compute_weighted_score (log : Nat → ℚ) (obj : cache_obj_t) (params : cache_t) : ℚ :=
  weighted_score log params.alpha params.beta params.gamma (obj.freq : ℚ) obj.obj_size
    obj.reloadCost

/-- The constructor `S3FIFO_init` after parameter parsing: the three budgets are the
truncated products of the capacity and the ratios, Ghost exists only when its budget is
positive, and every tier starts empty.  The ratios and weights are the parsed `double`s. -/
def S3FIFO_init (cache_size : Int) (s_ratio m_ratio lq_ratio ghost_size_ratio : ℚ)
    (alpha beta gamma : ℚ) (size_threshold : Nat) : cache_t :=
  { cache_size := cache_size
    fifo := FIFO_init (tier_budget cache_size s_ratio)
    fifo_ghost :=
      if tier_budget cache_size ghost_size_ratio > 0 then
        some (FIFO_init (tier_budget cache_size ghost_size_ratio))
      else none
    main_cache := FIFO_init (tier_budget cache_size m_ratio)
    large_cache := FIFO_init (tier_budget cache_size lq_ratio)
    hit_on_ghost := false
    ghost_size_ratio := ghost_size_ratio
    s_ratio := s_ratio
    m_ratio := m_ratio
    lq_ratio := lq_ratio
    alpha := alpha
    beta := beta
    gamma := gamma
    size_threshold := size_threshold }

/-- The constructor with `DEFAULT_CACHE_PARAMS`:
`s-ratio=0.10,m-ratio=0.70,lq-ratio=0.20,ghost-size-ratio=0.90,alpha=1.0,beta=0.5,gamma=2.0`.
Each ratio is the `double` that `strtod` reads from its decimal text. -/
def S3FIFO_init_default (cache_size : Int) (size_threshold : Nat) : cache_t :=
  S3FIFO_init cache_size (round_double (1 / 10)) (round_double (7 / 10))
    (round_double (2 / 10)) (round_double (9 / 10)) 1 (1 / 2) 2 size_threshold

/-- The constructor with the three tier ratios given as decimal text and the other
parameters at their defaults (threshold 100); each ratio is the `double` that `strtod`
reads. -/
def S3FIFO_init_ratios (cache_size : Int) (s_ratio m_ratio lq_ratio : ℚ) : cache_t :=
  S3FIFO_init cache_size (round_double s_ratio) (round_double m_ratio) (round_double lq_ratio)
    (round_double (9 / 10)) 1 (1 / 2) 2 100

/-! ## Lookup and admission -/

/-- The lookup `S3FIFO_find`. Without `update_cache` the three tiers are probed in the
order Small, Main, Large. With `update_cache` the ghost-hit flag is cleared; a hit in
Small bumps the counter and returns; otherwise the id is removed from Ghost (setting the
flag when it was there), a hit in Main bumps the counter, and the result is whatever the
probe of Large gives (bumped when found). -/
def S3FIFO_find (s : cache_t) (req : request_t) (update_cache : Bool) :
    cache_t × Option cache_obj_t :=
  if !update_cache then
    match FIFO_find s.fifo req.obj_id with
    | some obj => (s, some obj)
    | none =>
      match FIFO_find s.main_cache req.obj_id with
      | some obj => (s, some obj)
      | none =>
        match FIFO_find s.large_cache req.obj_id with
        | some obj => (s, some obj)
        | none => (s, none)
  else
    let s0 := { s with hit_on_ghost := false }
    match FIFO_find s0.fifo req.obj_id with
    | some obj =>
      ({ s0 with fifo := { s0.fifo with q := update_found freq_incr req.obj_id s0.fifo.q } },
        some { obj with freq := freq_incr obj.freq })
    | none =>
      let s1 :=
        match s0.fifo_ghost with
        | some g =>
          if (FIFO_remove g req.obj_id).2 then
            { s0 with fifo_ghost := some (FIFO_remove g req.obj_id).1, hit_on_ghost := true }
          else s0
        | none => s0
      let s2 :=
        match FIFO_find s1.main_cache req.obj_id with
        | some _ =>
          { s1 with main_cache :=
              { s1.main_cache with q := update_found freq_incr req.obj_id s1.main_cache.q } }
        | none => s1
      match FIFO_find s2.large_cache req.obj_id with
      | some obj =>
        ({ s2 with large_cache :=
            { s2.large_cache with q := update_found freq_incr req.obj_id s2.large_cache.q } },
          some { obj with freq := freq_incr obj.freq })
      | none => (s2, none)

/-- The admission `S3FIFO_insert`: into Main after a ghost hit (clearing the flag),
otherwise into Large when the size exceeds the threshold and into Small when it does not;
the counter of the inserted object is then set to 0. The second component is the
inserted object. -/
def S3FIFO_insert (s : cache_t) (req : request_t) : cache_t × Option cache_obj_t :=
  if s.hit_on_ghost then
    let t := FIFO_insert s.main_cache req
    let t0 := { t with q := update_head (fun _ => 0) t.q }
    ({ s with hit_on_ghost := false, main_cache := t0 }, t0.q.head?)
  else if req.obj_size > s.size_threshold then
    let t := FIFO_insert s.large_cache req
    let t0 := { t with q := update_head (fun _ => 0) t.q }
    ({ s with large_cache := t0 }, t0.q.head?)
  else
    let t := FIFO_insert s.fifo req
    let t0 := { t with q := update_head (fun _ => 0) t.q }
    ({ s with fifo := t0 }, t0.q.head?)

/-- The admission test `S3FIFO_can_insert`. -/
def S3FIFO_can_insert (s : cache_t) (req : request_t) : Bool :=
  if req.obj_size > s.size_threshold then
    decide ((req.obj_size : Int) ≤ s.large_cache.cache_size)
  else
    decide ((req.obj_size : Int) ≤ s.fifo.cache_size)

/-! ## Eviction -/

/-- Recording an evicted object in Ghost, `if (ghost != NULL) ghost->get(ghost, req)`. -/
def ghost_get (s : cache_t) (obj : cache_obj_t) : cache_t :=
  match s.fifo_ghost with
  | some g => { s with fifo_ghost := some (FIFO_get g (req_local obj)) }
  | none => s

/-- Small-overflow eviction `S3FIFO_evict_fifo`. The loop body runs at most once because
it ends by setting `has_evicted`. The request argument of the source is not used. -/
def S3FIFO_evict_fifo (log : Nat → ℚ) (s : cache_t) : cache_t :=
  if FIFO_get_occupied_byte s.fifo > 0 then
    match FIFO_to_evict s.fifo with
    | none => s
    | some obj_to_evict =>
      let score := compute_weighted_score log obj_to_evict s
      let s1 :=
        if score ≥ SOME_SCORE_THRESHOLD then
          { s with main_cache := FIFO_insert s.main_cache (req_local obj_to_evict) }
        else ghost_get s obj_to_evict
      { s1 with fifo := (FIFO_remove s1.fifo obj_to_evict.obj_id).1 }
  else s

/-- Main-overflow eviction `S3FIFO_evict_main`. With a high score the counter of the
candidate is set to `MIN(freq, 3) - 1` in place and a copy is inserted before the removal
by id. -/
def S3FIFO_evict_main (log : Nat → ℚ) (s : cache_t) : cache_t :=
  if FIFO_get_occupied_byte s.main_cache > s.main_cache.cache_size then
    match FIFO_to_evict s.main_cache with
    | none => s
    | some obj_to_evict =>
      let score := compute_weighted_score log obj_to_evict s
      let s1 :=
        if score ≥ SOME_SCORE_THRESHOLD then
          let m0 := { s.main_cache with
                      q := update_tail (fun f => min f 3 - 1) s.main_cache.q }
          { s with main_cache := FIFO_insert m0 (req_local obj_to_evict) }
        else ghost_get s obj_to_evict
      { s1 with main_cache := (FIFO_remove s1.main_cache obj_to_evict.obj_id).1 }
  else s

/-- Large-overflow eviction `S3FIFO_evict_lq`. -/
def S3FIFO_evict_lq (log : Nat → ℚ) (s : cache_t) : cache_t :=
  if FIFO_get_occupied_byte s.large_cache > s.large_cache.cache_size then
    match FIFO_to_evict s.large_cache with
    | none => s
    | some obj_to_evict =>
      let score := compute_weighted_score log obj_to_evict s
      let s1 :=
        if score ≥ SOME_SCORE_THRESHOLD then
          { s with main_cache := FIFO_insert s.main_cache (req_local obj_to_evict) }
        else ghost_get s obj_to_evict
      { s1 with large_cache := (FIFO_remove s1.large_cache obj_to_evict.obj_id).1 }
  else s

/-- The eviction entry point `S3FIFO_evict`: the first over-budget tier in the order
Small, Main, Large evicts once; when no tier is over its budget nothing happens. -/
def S3FIFO_evict (log : Nat → ℚ) (s : cache_t) : cache_t :=
  if FIFO_get_occupied_byte s.fifo > s.fifo.cache_size then S3FIFO_evict_fifo log s
  else if FIFO_get_occupied_byte s.main_cache > s.main_cache.cache_size then
    S3FIFO_evict_main log s
  else if FIFO_get_occupied_byte s.large_cache > s.large_cache.cache_size then
    S3FIFO_evict_lq log s
  else s

/-- User-triggered removal `S3FIFO_remove`: Small, then Ghost, then Main, each probed only
while nothing has been removed yet. -/
def S3FIFO_remove (s : cache_t) (obj_id : Nat) : cache_t × Bool :=
  if (FIFO_remove s.fifo obj_id).2 then
    ({ s with fifo := (FIFO_remove s.fifo obj_id).1 }, true)
  else
    match s.fifo_ghost with
    | some g =>
      if (FIFO_remove g obj_id).2 then
        ({ s with fifo_ghost := some (FIFO_remove g obj_id).1 }, true)
      else if (FIFO_remove s.main_cache obj_id).2 then
        ({ s with main_cache := (FIFO_remove s.main_cache obj_id).1 }, true)
      else (s, false)
    | none =>
      if (FIFO_remove s.main_cache obj_id).2 then
        ({ s with main_cache := (FIFO_remove s.main_cache obj_id).1 }, true)
      else (s, false)

/-- The byte count `S3FIFO_get_occupied_byte`: Small, Main and Large. -/
def S3FIFO_get_occupied_byte (s : cache_t) : Int :=
  FIFO_get_occupied_byte s.fifo + FIFO_get_occupied_byte s.main_cache +
    FIFO_get_occupied_byte s.large_cache

/-- The object count `S3FIFO_get_n_obj`: Small and Main. -/
def S3FIFO_get_n_obj (s : cache_t) : Int :=
  FIFO_get_n_obj s.fifo + FIFO_get_n_obj s.main_cache

/-! ## The capacity planner -/

/-- The signal `get_recent_large_requests`: a constant in the source. -/
def get_recent_large_requests : ℚ := 100

/-- The signal `get_recent_small_requests`: a constant in the source. -/
def get_recent_small_requests : ℚ := 300

/-- The constant `LARGE_REQUEST_THRESHOLD` of the planner. -/
def LARGE_REQUEST_THRESHOLD : ℚ := 200

/-- The constant `SMALL_REQUEST_THRESHOLD` of the planner. -/
def SMALL_REQUEST_THRESHOLD : ℚ := 400

/-- The constant `ADJUST_RATIO_STEP` of the planner: the `double` written `0.05`. -/
def ADJUST_RATIO_STEP : ℚ := round_double (5 / 100)

/-- The renormalisation `normalize_ratios`: each ratio is divided by the sum of the three,
every addition and division rounded to a `double`.  A zero sum, for which the machine
stores NaN, is outside the model (the quotient is then `0`). -/
def normalize_ratios (s : cache_t) : cache_t :=
  let total := round_double (round_double (s.s_ratio + s.m_ratio) + s.lq_ratio)
  { s with s_ratio := round_double (s.s_ratio / total),
           m_ratio := round_double (s.m_ratio / total),
           lq_ratio := round_double (s.lq_ratio / total) }

/-- The planner pass `DCP_check_and_adjust`: adjust the ratios from the two signals,
renormalise, install the three budgets, then give each over-budget tier one call of its
eviction routine. -/
def DCP_check_and_adjust (log : Nat → ℚ) (s : cache_t) : cache_t :=
  let s1 :=
    if get_recent_large_requests > LARGE_REQUEST_THRESHOLD then
      { s with lq_ratio := round_double (s.lq_ratio + ADJUST_RATIO_STEP),
               s_ratio := round_double (s.s_ratio - round_double (ADJUST_RATIO_STEP / 2)),
               m_ratio := round_double (s.m_ratio - round_double (ADJUST_RATIO_STEP / 2)) }
    else if get_recent_small_requests > SMALL_REQUEST_THRESHOLD then
      { s with lq_ratio := round_double (s.lq_ratio - ADJUST_RATIO_STEP),
               s_ratio := round_double (s.s_ratio + round_double (ADJUST_RATIO_STEP / 2)),
               m_ratio := round_double (s.m_ratio + round_double (ADJUST_RATIO_STEP / 2)) }
    else s
  let s2 := normalize_ratios s1
  let s_size := tier_budget s2.cache_size s2.s_ratio
  let m_size := tier_budget s2.cache_size s2.m_ratio
  let lq_size := tier_budget s2.cache_size s2.lq_ratio
  let s3 := { s2 with fifo := resize_cache s2.fifo s_size,
                      main_cache := resize_cache s2.main_cache m_size,
                      large_cache := resize_cache s2.large_cache lq_size }
  let s4 := if FIFO_get_occupied_byte s3.fifo > s_size then S3FIFO_evict_fifo log s3 else s3
  let s5 :=
    if FIFO_get_occupied_byte s4.main_cache > m_size then S3FIFO_evict_main log s4 else s4
  if FIFO_get_occupied_byte s5.large_cache > lq_size then S3FIFO_evict_lq log s5 else s5

/-! ## The request path -/

/-- Modelled from the spec: the eviction loop of the shared request dispatch
(`cache_get_base`), "while occupied_bytes + obj_size > capacity do evict": `cache->evict`
is called until the request fits in the total capacity (`obj_md_size` is 0). The result is
`none` when the fuel is used up before the request fits. -/
def evict_loop (log : Nat → ℚ) : Nat → cache_t → request_t → Option cache_t
  | 0, s, req =>
    if S3FIFO_get_occupied_byte s + (req.obj_size : Int) > s.cache_size then none else some s
  | fuel + 1, s, req =>
    if S3FIFO_get_occupied_byte s + (req.obj_size : Int) > s.cache_size then
      evict_loop log fuel (S3FIFO_evict log s) req
    else some s

/-- Modelled from the spec: the shared request dispatch `cache_get_base`, "lookup →
optional eviction → optional admission": a mutating lookup; on a miss that can be
admitted, evict until there is room, then admit. The boolean is the hit/miss answer. -/
def cache_get_base (log : Nat → ℚ) (fuel : Nat) (s : cache_t) (req : request_t) :
    Option (cache_t × Bool) :=
  match S3FIFO_find s req true with
  | (s1, some _) => some (s1, true)
  | (s1, none) =>
    if S3FIFO_can_insert s1 req then
      match evict_loop log fuel s1 req with
      | some s2 => some ((S3FIFO_insert s2 req).1, false)
      | none => none
    else some (s1, false)

/-- The assertion at the entry of `S3FIFO_get`. -/
def S3FIFO_get_assertion (s : cache_t) : Prop :=
  FIFO_get_occupied_byte s.fifo + FIFO_get_occupied_byte s.main_cache ≤ s.cache_size

/-- The user-facing request `S3FIFO_get`: a planner pass, then the shared dispatch. -/
def S3FIFO_get (log : Nat → ℚ) (fuel : Nat) (s : cache_t) (req : request_t) :
    Option (cache_t × Bool) :=
  cache_get_base log fuel (DCP_check_and_adjust log s) req

/-- A sequence of `S3FIFO_get` requests, each with the given fuel for its eviction loop;
`none` when one of them does not complete. -/
def run_requests (log : Nat → ℚ) (fuel : Nat) : cache_t → List request_t → Option cache_t
  | s, [] => some s
  | s, req :: rest =>
    match S3FIFO_get log fuel s req with
    | some (s1, _) => run_requests log fuel s1 rest
    | none => none

/-! ## Predicates used by the statements -/

/-- The number of containers among Small, Main, Large and Ghost that hold the id. -/
def tier_count (s : cache_t) (id : Nat) : Nat :=
  (if id ∈ FIFO_ids s.fifo then 1 else 0) + (if id ∈ FIFO_ids s.main_cache then 1 else 0) +
    (if id ∈ FIFO_ids s.large_cache then 1 else 0) +
    (match s.fifo_ghost with
     | some g => if id ∈ FIFO_ids g then 1 else 0
     | none => 0)

/-- Tier exclusivity: every id is held by at most one of the four containers. -/
def tier_exclusive (s : cache_t) : Prop := ∀ id : Nat, tier_count s id ≤ 1

/-- A computable stand-in for the libm logarithm, used only to run the model on concrete
inputs: the integer part of the binary logarithm times `ln 2` cut to six digits, a lower
approximation of the natural logarithm for every size from 1 on. -/
def log_floor (n : Nat) : ℚ := (Nat.log2 n : ℚ) * (693147 / 1000000)

/-- The object that an admission of `req` creates: the fields of the request and a zero
frequency counter. -/
def admitted_obj (req : request_t) : cache_obj_t :=
  { obj_id := req.obj_id, obj_size := req.obj_size, freq := 0, reloadCost := req.reloadCost }

/-- A concrete state for the Small-overflow routine: capacity 1000, default parameters,
threshold 100, Small holding the objects 3, 2 and (oldest) `a`; everything else empty. -/
def state_small_oldest (a : cache_obj_t) : cache_t :=
  { S3FIFO_init_default 1000 100 with fifo := ⟨100, [⟨3, 50, 0, 0⟩, ⟨2, 50, 0, 0⟩, a]⟩ }

/-- The invariant behind the total capacity bound: the bytes of Small, Main and Large fit
in the total capacity, and neither Small nor Large holds an id twice. -/
def capacity_inv (s : cache_t) : Prop :=
  S3FIFO_get_occupied_byte s ≤ s.cache_size ∧ (FIFO_ids s.fifo).Nodup ∧
    (FIFO_ids s.large_cache).Nodup

/-- What every eviction step guarantees: the total capacity is unchanged, the occupied
bytes do not grow, and Small and Large only lose residents. -/
def evict_step_ok (s s1 : cache_t) : Prop :=
  s1.cache_size = s.cache_size ∧
    S3FIFO_get_occupied_byte s1 ≤ S3FIFO_get_occupied_byte s ∧
    (FIFO_ids s1.fifo).Sublist (FIFO_ids s.fifo) ∧
    (FIFO_ids s1.large_cache).Sublist (FIFO_ids s.large_cache)

/-- The first half of the planner pass (ratio adjustment, renormalisation, installation of
the three budgets), named for the proofs: `DCP_check_and_adjust` is this followed by
`DCP_evictions`. -/
def DCP_budgets (s : cache_t) : cache_t :=
  let s1 :=
    if get_recent_large_requests > LARGE_REQUEST_THRESHOLD then
      { s with lq_ratio := round_double (s.lq_ratio + ADJUST_RATIO_STEP),
               s_ratio := round_double (s.s_ratio - round_double (ADJUST_RATIO_STEP / 2)),
               m_ratio := round_double (s.m_ratio - round_double (ADJUST_RATIO_STEP / 2)) }
    else if get_recent_small_requests > SMALL_REQUEST_THRESHOLD then
      { s with lq_ratio := round_double (s.lq_ratio - ADJUST_RATIO_STEP),
               s_ratio := round_double (s.s_ratio + round_double (ADJUST_RATIO_STEP / 2)),
               m_ratio := round_double (s.m_ratio + round_double (ADJUST_RATIO_STEP / 2)) }
    else s
  let s2 := normalize_ratios s1
  { s2 with fifo := resize_cache s2.fifo (tier_budget s2.cache_size s2.s_ratio),
            main_cache := resize_cache s2.main_cache (tier_budget s2.cache_size s2.m_ratio),
            large_cache := resize_cache s2.large_cache (tier_budget s2.cache_size s2.lq_ratio) }

/-- The second half of the planner pass, named for the proofs: each tier that is over the
budget just installed gets one call of its eviction routine, in the order Small, Main,
Large. -/
def DCP_evictions (log : Nat → ℚ) (s3 : cache_t) : cache_t :=
  let s4 :=
    if FIFO_get_occupied_byte s3.fifo > s3.fifo.cache_size then S3FIFO_evict_fifo log s3
    else s3
  let s5 :=
    if FIFO_get_occupied_byte s4.main_cache > s3.main_cache.cache_size then
      S3FIFO_evict_main log s4
    else s4
  if FIFO_get_occupied_byte s5.large_cache > s3.large_cache.cache_size then
    S3FIFO_evict_lq log s5
  else s5

/-- Well-formedness of the Ghost index: no id is recorded twice. -/
def ghost_inv (s : cache_t) : Prop :=
  ∀ g, s.fifo_ghost = some g → (FIFO_ids g).Nodup

/-- What the eviction routines never touch: the total capacity, the ratios, the scorer
weights, the size threshold, the ghost-hit flag and the three tier budgets. -/
def same_params (s s1 : cache_t) : Prop :=
  s1.cache_size = s.cache_size ∧ s1.s_ratio = s.s_ratio ∧ s1.m_ratio = s.m_ratio ∧
    s1.lq_ratio = s.lq_ratio ∧ s1.ghost_size_ratio = s.ghost_size_ratio ∧
    s1.alpha = s.alpha ∧ s1.beta = s.beta ∧ s1.gamma = s.gamma ∧
    s1.size_threshold = s.size_threshold ∧ s1.hit_on_ghost = s.hit_on_ghost ∧
    s1.fifo.cache_size = s.fifo.cache_size ∧
    s1.main_cache.cache_size = s.main_cache.cache_size ∧
    s1.large_cache.cache_size = s.large_cache.cache_size

/-! ## Basic facts about the FIFO tier -/

theorem FIFO_find_eq_none (t : FIFO_cache) (id : Nat) :
    FIFO_find t id = none ↔ id ∉ FIFO_ids t := by
  unfold FIFO_find FIFO_ids
  rw [List.find?_eq_none]
  simp

theorem FIFO_find_some (t : FIFO_cache) (id : Nat) (o : cache_obj_t)
    (h : FIFO_find t id = some o) : o.obj_id = id ∧ o ∈ t.q := by
  unfold FIFO_find at h
  have h1 := List.find?_some h
  have h2 := List.mem_of_find?_eq_some h
  exact ⟨by simpa using h1, h2⟩

theorem FIFO_find_isSome_of_mem (t : FIFO_cache) (id : Nat) (h : id ∈ FIFO_ids t) :
    ∃ o, FIFO_find t id = some o := by
  cases hf : FIFO_find t id with
  | none => exact absurd h ((FIFO_find_eq_none t id).mp hf)
  | some o => exact ⟨o, rfl⟩

theorem mem_ids_of_find (t : FIFO_cache) (id : Nat) (o : cache_obj_t)
    (h : FIFO_find t id = some o) : id ∈ FIFO_ids t := by
  by_contra hn
  rw [← FIFO_find_eq_none] at hn
  rw [hn] at h
  cases h

theorem ids_eraseP_sublist (l : List cache_obj_t) (id : Nat) :
    ((l.eraseP (fun o => o.obj_id == id)).map (fun o => o.obj_id)).Sublist
      (l.map (fun o => o.obj_id)) :=
  (List.eraseP_sublist l).map _

theorem not_mem_ids_eraseP (l : List cache_obj_t) (id : Nat)
    (hnd : (l.map (fun o => o.obj_id)).Nodup) :
    id ∉ (l.eraseP (fun o => o.obj_id == id)).map (fun o => o.obj_id) := by
  induction l with
  | nil => simp
  | cons a l ih =>
    rw [List.map_cons, List.nodup_cons] at hnd
    by_cases ha : a.obj_id = id
    · simp only [List.eraseP_cons, ha, beq_self_eq_true, cond_true]
      rw [← ha]
      exact hnd.1
    · have hb : (a.obj_id == id) = false := by simp [ha]
      simp only [List.eraseP_cons, hb, cond_false, List.map_cons, List.mem_cons, not_or]
      exact ⟨fun h => ha h.symm, ih hnd.2⟩

theorem ids_update_found (g : Int → Int) (id : Nat) (l : List cache_obj_t) :
    (update_found g id l).map (fun o => o.obj_id) = l.map (fun o => o.obj_id) := by
  induction l with
  | nil => rfl
  | cons a l ih =>
    unfold update_found
    split
    · simp
    · simp [ih]

theorem sizes_update_found (g : Int → Int) (id : Nat) (l : List cache_obj_t) :
    (update_found g id l).map (fun o => (o.obj_size : Int)) =
      l.map (fun o => (o.obj_size : Int)) := by
  induction l with
  | nil => rfl
  | cons a l ih =>
    unfold update_found
    split
    · simp
    · simp [ih]

theorem find_update_found (g : Int → Int) (id : Nat) (l : List cache_obj_t) (o : cache_obj_t)
    (h : l.find? (fun o => o.obj_id == id) = some o) :
    (update_found g id l).find? (fun o => o.obj_id == id) = some { o with freq := g o.freq } := by
  induction l with
  | nil => simp at h
  | cons a l ih =>
    unfold update_found
    by_cases ha : a.obj_id = id
    · have hb : (a.obj_id == id) = true := by simp [ha]
      rw [List.find?_cons_of_pos _ (by simpa using ha)] at h
      cases h
      simp [hb]
    · have hb : (a.obj_id == id) = false := by simp [ha]
      rw [List.find?_cons_of_neg _ (by simpa using ha)] at h
      simp only [hb, Bool.false_eq_true, if_false]
      rw [List.find?_cons_of_neg _ (by simpa using ha)]
      exact ih h

/-! ## Lookup -/

/-- A mutating lookup of an id that is resident in Main only answers not-found, whatever
the state of Ghost: the result of the Main probe is overwritten by the probe of Large. -/
theorem S3FIFO_find_main_only (s : cache_t) (req : request_t) (o : cache_obj_t)
    (hS : FIFO_find s.fifo req.obj_id = none)
    (hM : FIFO_find s.main_cache req.obj_id = some o)
    (hL : FIFO_find s.large_cache req.obj_id = none) :
    (S3FIFO_find s req true).2 = none ∧ (S3FIFO_find s req false).2 = some o := by
  constructor
  · simp only [S3FIFO_find, Bool.not_true, Bool.false_eq_true, if_false, hS]
    cases hg : s.fifo_ghost with
    | none => simp [hM, hL]
    | some g =>
      by_cases hr : (FIFO_remove g req.obj_id).2 = true
      · simp [hr, hM, hL]
      · simp [hr, hM, hL]
  · simp [S3FIFO_find, hS, hM]

/-- C3, evaluated on a reachable state: after the requests 1, 2, 3, 1 (all of size 50,
capacity 1000, default parameters, size threshold 100) object 1 is resident in Main and in
no other tier; the non-mutating lookup of 1 finds it, the mutating lookup of 1 reports
not-found. -/
theorem C3_main_hit_reported_as_miss :
    (run_requests log_floor 0 (S3FIFO_init_default 1000 100)
        [⟨1, 50, 0⟩, ⟨2, 50, 0⟩, ⟨3, 50, 0⟩, ⟨1, 50, 0⟩]).map
      (fun s => (FIFO_ids s.fifo, FIFO_ids s.main_cache, FIFO_ids s.large_cache,
        (S3FIFO_find s ⟨1, 50, 0⟩ false).2, (S3FIFO_find s ⟨1, 50, 0⟩ true).2)) =
      some ([3, 2], [1], [], some ⟨1, 50, 0, 0⟩, none) := by
  decide!

/-- C8: a non-mutating lookup returns the state it was given: tiers, Ghost, every counter
and the ghost-hit flag are untouched. -/
theorem C8_find_without_update_is_pure (s : cache_t) (req : request_t) :
    (S3FIFO_find s req false).1 = s := by
  unfold S3FIFO_find
  simp only [Bool.not_false, if_true]
  split
  · rfl
  · split
    · rfl
    · split <;> rfl

/-! ## Admission -/

/-- C5: when the ghost-hit flag is clear, admission puts the new object (counter 0) at the
young end of Small if its size is at most the threshold and of Large if it is above, and
leaves every other part of the state as it was. -/
theorem C5_admission_routing_by_size (s : cache_t) (req : request_t)
    (hflag : s.hit_on_ghost = false) :
    (req.obj_size ≤ s.size_threshold →
      S3FIFO_insert s req =
        ({ s with fifo := { s.fifo with q := admitted_obj req :: s.fifo.q } },
          some (admitted_obj req))) ∧
    (req.obj_size > s.size_threshold →
      S3FIFO_insert s req =
        ({ s with large_cache := { s.large_cache with q := admitted_obj req :: s.large_cache.q } },
          some (admitted_obj req))) ∧
    (admitted_obj req).freq = 0 := by
  refine ⟨?_, ?_, rfl⟩
  · intro h
    have h1 : ¬ req.obj_size > s.size_threshold := by omega
    simp [S3FIFO_insert, hflag, h1, FIFO_insert, update_head, admitted_obj]
  · intro h
    simp [S3FIFO_insert, hflag, h, FIFO_insert, update_head, admitted_obj]

/-- C5 at a concrete input: threshold 100, an empty cache, requests of size 50 and 500. -/
theorem C5_admission_routing_by_size_witness :
    (S3FIFO_init_default 10000 100).hit_on_ghost = false ∧
    (50 ≤ (S3FIFO_init_default 10000 100).size_threshold ∧
      S3FIFO_insert (S3FIFO_init_default 10000 100) ⟨1, 50, 0⟩ =
        ({ S3FIFO_init_default 10000 100 with
            fifo := { (S3FIFO_init_default 10000 100).fifo with
                      q := [admitted_obj ⟨1, 50, 0⟩] } },
          some (admitted_obj ⟨1, 50, 0⟩))) ∧
    (500 > (S3FIFO_init_default 10000 100).size_threshold ∧
      S3FIFO_insert (S3FIFO_init_default 10000 100) ⟨2, 500, 0⟩ =
        ({ S3FIFO_init_default 10000 100 with
            large_cache := { (S3FIFO_init_default 10000 100).large_cache with
                      q := [admitted_obj ⟨2, 500, 0⟩] } },
          some (admitted_obj ⟨2, 500, 0⟩))) :=
  ⟨rfl,
   ⟨by decide, (C5_admission_routing_by_size (S3FIFO_init_default 10000 100) ⟨1, 50, 0⟩ rfl).1
      (by decide)⟩,
   ⟨by decide, (C5_admission_routing_by_size (S3FIFO_init_default 10000 100) ⟨2, 500, 0⟩ rfl).2.1
      (by decide)⟩⟩

/-- C6, refuted on a reachable state: capacity 10000, threshold 100, default parameters.
Objects 1 to 5 of size 500 are admitted into Large; the planner pass of the next request
demotes object 1 to Ghost; the mutating lookup of object 1 then hits Ghost, and the
admission of object 1 (size 500, above the threshold) puts it into Main while Large keeps
the objects 5, 4, 3, 2 only. -/
theorem C6_large_object_after_ghost_hit :
    (run_requests log_floor 0 (S3FIFO_init_default 10000 100)
        [⟨1, 500, 0⟩, ⟨2, 500, 0⟩, ⟨3, 500, 0⟩, ⟨4, 500, 0⟩, ⟨5, 500, 0⟩]).map
      (fun s =>
        ((S3FIFO_find (DCP_check_and_adjust log_floor s) ⟨1, 500, 0⟩ true).1.hit_on_ghost,
         decide (500 > (S3FIFO_find (DCP_check_and_adjust log_floor s)
            ⟨1, 500, 0⟩ true).1.size_threshold),
         FIFO_ids (S3FIFO_insert (S3FIFO_find (DCP_check_and_adjust log_floor s)
            ⟨1, 500, 0⟩ true).1 ⟨1, 500, 0⟩).1.large_cache,
         FIFO_ids (S3FIFO_insert (S3FIFO_find (DCP_check_and_adjust log_floor s)
            ⟨1, 500, 0⟩ true).1 ⟨1, 500, 0⟩).1.main_cache)) =
      some (true, true, [5, 4, 3, 2], [1]) := by
  decide!

/-- C6 as amended: for a request above the size threshold, admission never touches Small
or Ghost; it puts the new object at the young end of Large when the ghost-hit flag is
clear, and at the young end of Main (leaving Large alone) when the flag is set. -/
theorem C6_large_object_admission (s : cache_t) (req : request_t)
    (hbig : req.obj_size > s.size_threshold) :
    (S3FIFO_insert s req).1.fifo = s.fifo ∧
    (S3FIFO_insert s req).1.fifo_ghost = s.fifo_ghost ∧
    (s.hit_on_ghost = false →
      (S3FIFO_insert s req).1.large_cache.q = admitted_obj req :: s.large_cache.q ∧
      (S3FIFO_insert s req).1.main_cache = s.main_cache) ∧
    (s.hit_on_ghost = true →
      (S3FIFO_insert s req).1.main_cache.q = admitted_obj req :: s.main_cache.q ∧
      (S3FIFO_insert s req).1.large_cache = s.large_cache) := by
  cases hflag : s.hit_on_ghost <;>
    simp [S3FIFO_insert, hflag, hbig, FIFO_insert, update_head, admitted_obj]

/-- C6 as amended, at concrete inputs: object B of size 500 with threshold 100, on an
empty cache, once with the ghost-hit flag clear and once with the flag set. -/
theorem C6_large_object_admission_witness :
    500 > (S3FIFO_init_default 10000 100).size_threshold ∧
    (S3FIFO_insert (S3FIFO_init_default 10000 100) ⟨2, 500, 0⟩).1.fifo =
      (S3FIFO_init_default 10000 100).fifo ∧
    (S3FIFO_insert (S3FIFO_init_default 10000 100) ⟨2, 500, 0⟩).1.large_cache.q =
      [admitted_obj ⟨2, 500, 0⟩] ∧
    (S3FIFO_insert { S3FIFO_init_default 10000 100 with hit_on_ghost := true }
        ⟨2, 500, 0⟩).1.main_cache.q = [admitted_obj ⟨2, 500, 0⟩] ∧
    (S3FIFO_insert { S3FIFO_init_default 10000 100 with hit_on_ghost := true }
        ⟨2, 500, 0⟩).1.large_cache = (S3FIFO_init_default 10000 100).large_cache :=
  ⟨by decide,
   (C6_large_object_admission (S3FIFO_init_default 10000 100) ⟨2, 500, 0⟩ (by decide)).1,
   ((C6_large_object_admission (S3FIFO_init_default 10000 100) ⟨2, 500, 0⟩
      (by decide)).2.2.1 rfl).1,
   ((C6_large_object_admission { S3FIFO_init_default 10000 100 with hit_on_ghost := true }
      ⟨2, 500, 0⟩ (by decide)).2.2.2 rfl).1,
   ((C6_large_object_admission { S3FIFO_init_default 10000 100 with hit_on_ghost := true }
      ⟨2, 500, 0⟩ (by decide)).2.2.2 rfl).2⟩

/-- C4: if the id of the request is recorded in Ghost (which holds each id once) and is
resident in no tier, the mutating lookup reports a miss, removes the id from Ghost and
sets the ghost-hit flag; the admission that follows puts the new object (counter 0) at
the young end of Main, leaves Small and Large as they were, and leaves Ghost without the
id. -/
theorem C4_ghost_bypass (s : cache_t) (req : request_t) (g : FIFO_cache)
    (hg : s.fifo_ghost = some g) (hin : req.obj_id ∈ FIFO_ids g)
    (hnd : (FIFO_ids g).Nodup)
    (hS : req.obj_id ∉ FIFO_ids s.fifo) (hM : req.obj_id ∉ FIFO_ids s.main_cache)
    (hL : req.obj_id ∉ FIFO_ids s.large_cache) :
    (S3FIFO_find s req true).2 = none ∧
    (S3FIFO_find s req true).1.hit_on_ghost = true ∧
    (S3FIFO_find s req true).1.fifo_ghost = some (FIFO_remove g req.obj_id).1 ∧
    req.obj_id ∉ FIFO_ids (FIFO_remove g req.obj_id).1 ∧
    (S3FIFO_insert (S3FIFO_find s req true).1 req).1.main_cache.q =
      admitted_obj req :: s.main_cache.q ∧
    (S3FIFO_insert (S3FIFO_find s req true).1 req).1.fifo = s.fifo ∧
    (S3FIFO_insert (S3FIFO_find s req true).1 req).1.large_cache = s.large_cache ∧
    (S3FIFO_insert (S3FIFO_find s req true).1 req).1.fifo_ghost =
      some (FIFO_remove g req.obj_id).1 ∧
    (S3FIFO_insert (S3FIFO_find s req true).1 req).1.hit_on_ghost = false := by
  rw [← FIFO_find_eq_none] at hS hM hL
  obtain ⟨o, ho⟩ := FIFO_find_isSome_of_mem g req.obj_id hin
  have hrem : FIFO_remove g req.obj_id =
      ({ g with q := g.q.eraseP (fun o => o.obj_id == req.obj_id) }, true) := by
    simp [FIFO_remove, ho]
  have hfind : S3FIFO_find s req true =
      ({ s with fifo_ghost := some (FIFO_remove g req.obj_id).1, hit_on_ghost := true },
        none) := by
    simp [S3FIFO_find, hS, hM, hL, hg, hrem]
  have hout : req.obj_id ∉ FIFO_ids (FIFO_remove g req.obj_id).1 := by
    rw [hrem]
    exact not_mem_ids_eraseP g.q req.obj_id hnd
  rw [hfind]
  refine ⟨rfl, rfl, rfl, hout, ?_, ?_, ?_, ?_, ?_⟩ <;>
    simp [S3FIFO_insert, FIFO_insert, update_head, admitted_obj]

/-- C4 at a concrete input: Ghost holds the ids 7 and 1, the tiers are empty, the request
is for object 1. -/
theorem C4_ghost_bypass_witness :
    (S3FIFO_find { S3FIFO_init_default 1000 100 with
        fifo_ghost := some ⟨900, [⟨7, 50, 0, 0⟩, ⟨1, 50, 0, 0⟩]⟩ } ⟨1, 50, 0⟩ true).2 = none ∧
    (S3FIFO_insert (S3FIFO_find { S3FIFO_init_default 1000 100 with
        fifo_ghost := some ⟨900, [⟨7, 50, 0, 0⟩, ⟨1, 50, 0, 0⟩]⟩ } ⟨1, 50, 0⟩ true).1
        ⟨1, 50, 0⟩).1.main_cache.q = [admitted_obj ⟨1, 50, 0⟩] ∧
    1 ∉ FIFO_ids (FIFO_remove ⟨900, [⟨7, 50, 0, 0⟩, ⟨1, 50, 0, 0⟩]⟩ 1).1 :=
  have h := C4_ghost_bypass
    { S3FIFO_init_default 1000 100 with
        fifo_ghost := some ⟨900, [⟨7, 50, 0, 0⟩, ⟨1, 50, 0, 0⟩]⟩ }
    ⟨1, 50, 0⟩ ⟨900, [⟨7, 50, 0, 0⟩, ⟨1, 50, 0, 0⟩]⟩ rfl (by decide) (by decide)
    (by decide) (by decide) (by decide)
  ⟨h.1, h.2.2.2.2.1, h.2.2.2.1⟩

/-! ## The effect of a mutating lookup -/

theorem update_found_of_find_none (g : Int → Int) (id : Nat) (l : List cache_obj_t)
    (h : l.find? (fun o => o.obj_id == id) = none) : update_found g id l = l := by
  induction l with
  | nil => rfl
  | cons a l ih =>
    unfold update_found
    by_cases ha : a.obj_id = id
    · rw [List.find?_cons_of_pos _ (by simpa using ha)] at h
      cases h
    · have hb : (a.obj_id == id) = false := by simp [ha]
      rw [List.find?_cons_of_neg _ (by simpa using ha)] at h
      simp only [hb, Bool.false_eq_true, if_false]
      rw [ih h]

theorem freq_incr_eq (f : Int) (hlo : -(2 ^ 31) ≤ f) (hhi : f < 2 ^ 31 - 1) :
    freq_incr f = f + 1 := by
  unfold freq_incr FREQ_BITS
  rw [Int.bmod_def]
  have h1 : (f + 1) % (2 ^ 32 : Int) = if 0 ≤ f + 1 then f + 1 else f + 1 + 2 ^ 32 := by
    split
    · exact Int.emod_eq_of_lt (by omega) (by omega)
    · omega
  norm_num at h1 hlo hhi ⊢
  omega

/-- A mutating lookup that finds the id in Small bumps that object and changes nothing
else but the ghost-hit flag. -/
theorem S3FIFO_find_true_small_hit (s : cache_t) (req : request_t) (o : cache_obj_t)
    (hS : FIFO_find s.fifo req.obj_id = some o) :
    S3FIFO_find s req true =
      ({ s with hit_on_ghost := false,
                fifo := { s.fifo with q := update_found freq_incr req.obj_id s.fifo.q } },
        some { o with freq := freq_incr o.freq }) := by
  simp [S3FIFO_find, hS]

/-- A mutating lookup that does not find the id in Small leaves Small alone, bumps the
object of Main with that id (if any) and the object of Large with that id (if any), and
answers with the bumped object of Large. -/
theorem S3FIFO_find_true_small_miss (s : cache_t) (req : request_t)
    (hS : FIFO_find s.fifo req.obj_id = none) :
    (S3FIFO_find s req true).1.fifo = s.fifo ∧
    (S3FIFO_find s req true).1.main_cache =
      { s.main_cache with q := update_found freq_incr req.obj_id s.main_cache.q } ∧
    (S3FIFO_find s req true).1.large_cache =
      { s.large_cache with q := update_found freq_incr req.obj_id s.large_cache.q } ∧
    (S3FIFO_find s req true).1.cache_size = s.cache_size ∧
    (S3FIFO_find s req true).1.size_threshold = s.size_threshold ∧
    (S3FIFO_find s req true).2 =
      (FIFO_find s.large_cache req.obj_id).map (fun o => { o with freq := freq_incr o.freq }) := by
  have hMq : ∀ (m : FIFO_cache), FIFO_find m req.obj_id = none →
      ({ m with q := update_found freq_incr req.obj_id m.q } : FIFO_cache) = m := by
    intro m hm
    rw [update_found_of_find_none _ _ _ hm]
  simp only [S3FIFO_find, Bool.not_true, Bool.false_eq_true, if_false, hS]
  cases hg : s.fifo_ghost with
  | none =>
    cases hM : FIFO_find s.main_cache req.obj_id with
    | none =>
      cases hL : FIFO_find s.large_cache req.obj_id with
      | none => simp [hM, hL, hMq]
      | some oL => simp [hM, hL, hMq]
    | some oM =>
      cases hL : FIFO_find s.large_cache req.obj_id with
      | none => simp [hM, hL, hMq]
      | some oL => simp [hM, hL, hMq]
  | some g =>
    by_cases hr : (FIFO_remove g req.obj_id).2 = true
    · cases hM : FIFO_find s.main_cache req.obj_id with
      | none =>
        cases hL : FIFO_find s.large_cache req.obj_id with
        | none => simp [hr, hM, hL, hMq]
        | some oL => simp [hr, hM, hL, hMq]
      | some oM =>
        cases hL : FIFO_find s.large_cache req.obj_id with
        | none => simp [hr, hM, hL, hMq]
        | some oL => simp [hr, hM, hL, hMq]
    · cases hM : FIFO_find s.main_cache req.obj_id with
      | none =>
        cases hL : FIFO_find s.large_cache req.obj_id with
        | none => simp [hr, hM, hL, hMq]
        | some oL => simp [hr, hM, hL, hMq]
      | some oM =>
        cases hL : FIFO_find s.large_cache req.obj_id with
        | none => simp [hr, hM, hL, hMq]
        | some oL => simp [hr, hM, hL, hMq]

/-- C7, refuted: the increment is a plain `+= 1` with no clamp. A Small-resident object
whose 32-bit counter is at its maximum 2147483647 has the counter -2147483648 after a
mutating hit, which is smaller than before; and a counter at 3, the value the Main-overflow
decay clamps to, becomes 4 instead of staying. -/
theorem C7_increment_does_not_saturate :
    FIFO_find (S3FIFO_find { S3FIFO_init_default 1000 100 with
        fifo := ⟨100, [⟨1, 50, 2147483647, 0⟩]⟩ } ⟨1, 50, 0⟩ true).1.fifo 1 =
      some ⟨1, 50, -2147483648, 0⟩ ∧
    FIFO_find (S3FIFO_find { S3FIFO_init_default 1000 100 with
        fifo := ⟨100, [⟨1, 50, 3, 0⟩]⟩ } ⟨1, 50, 0⟩ true).1.fifo 1 =
      some ⟨1, 50, 4, 0⟩ := by
  decide!

/-- C7 as amended: for a counter below the maximum of its 32-bit signed type, a mutating
lookup that reaches the object (in Small; or in Main or Large when the id is not in Small)
leaves the ids of that tier, hence the position of the object, as they were and makes the
counter exactly one greater; this holds at every value, also at and above 3. -/
theorem C7_hit_increments_counter (s : cache_t) (req : request_t) (o : cache_obj_t)
    (hlo : -(2 ^ 31) ≤ o.freq) (hhi : o.freq < 2 ^ 31 - 1) :
    (FIFO_find s.fifo req.obj_id = some o →
      FIFO_find (S3FIFO_find s req true).1.fifo req.obj_id =
        some { o with freq := o.freq + 1 } ∧
      FIFO_ids (S3FIFO_find s req true).1.fifo = FIFO_ids s.fifo ∧
      (S3FIFO_find s req true).1.main_cache = s.main_cache ∧
      (S3FIFO_find s req true).1.large_cache = s.large_cache) ∧
    (FIFO_find s.fifo req.obj_id = none → FIFO_find s.main_cache req.obj_id = some o →
      FIFO_find (S3FIFO_find s req true).1.main_cache req.obj_id =
        some { o with freq := o.freq + 1 } ∧
      FIFO_ids (S3FIFO_find s req true).1.main_cache = FIFO_ids s.main_cache ∧
      (S3FIFO_find s req true).1.fifo = s.fifo) ∧
    (FIFO_find s.fifo req.obj_id = none → FIFO_find s.large_cache req.obj_id = some o →
      FIFO_find (S3FIFO_find s req true).1.large_cache req.obj_id =
        some { o with freq := o.freq + 1 } ∧
      FIFO_ids (S3FIFO_find s req true).1.large_cache = FIFO_ids s.large_cache ∧
      (S3FIFO_find s req true).1.fifo = s.fifo) := by
  have hinc := freq_incr_eq o.freq hlo hhi
  refine ⟨?_, ?_, ?_⟩
  · intro hS
    rw [S3FIFO_find_true_small_hit s req o hS]
    refine ⟨?_, ?_, rfl, rfl⟩
    · have := find_update_found freq_incr req.obj_id s.fifo.q o hS
      rw [hinc] at this
      exact this
    · exact ids_update_found _ _ _
  · intro hS hM
    obtain ⟨h1, h2, -, -, -, -⟩ := S3FIFO_find_true_small_miss s req hS
    rw [h1, h2]
    refine ⟨?_, ?_, rfl⟩
    · have := find_update_found freq_incr req.obj_id s.main_cache.q o hM
      rw [hinc] at this
      exact this
    · exact ids_update_found _ _ _
  · intro hS hL
    obtain ⟨h1, -, h3, -, -, -⟩ := S3FIFO_find_true_small_miss s req hS
    rw [h1, h3]
    refine ⟨?_, ?_, rfl⟩
    · have := find_update_found freq_incr req.obj_id s.large_cache.q o hL
      rw [hinc] at this
      exact this
    · exact ids_update_found _ _ _

/-- C7 as amended, at concrete inputs: object 1 with counter 1 resident in Small, object 1
with counter 3 resident in Main only, and object 1 with counter 7 resident in Large only. -/
theorem C7_hit_increments_counter_witness :
    (-(2 ^ 31) ≤ (1 : Int) ∧ (1 : Int) < 2 ^ 31 - 1) ∧
    FIFO_find (S3FIFO_find { S3FIFO_init_default 1000 100 with
        fifo := ⟨100, [⟨1, 50, 1, 0⟩]⟩ } ⟨1, 50, 0⟩ true).1.fifo 1 =
      some ⟨1, 50, 1 + 1, 0⟩ ∧
    FIFO_find (S3FIFO_find { S3FIFO_init_default 1000 100 with
        main_cache := ⟨700, [⟨2, 50, 0, 0⟩, ⟨1, 50, 3, 0⟩]⟩ } ⟨1, 50, 0⟩ true).1.main_cache 1 =
      some ⟨1, 50, 3 + 1, 0⟩ ∧
    FIFO_find (S3FIFO_find { S3FIFO_init_default 1000 100 with
        large_cache := ⟨200, [⟨1, 150, 7, 0⟩]⟩ } ⟨1, 150, 0⟩ true).1.large_cache 1 =
      some ⟨1, 150, 7 + 1, 0⟩ :=
  ⟨by decide,
   ((C7_hit_increments_counter { S3FIFO_init_default 1000 100 with
        fifo := ⟨100, [⟨1, 50, 1, 0⟩]⟩ } ⟨1, 50, 0⟩ ⟨1, 50, 1, 0⟩ (by decide) (by decide)).1
      rfl).1,
   ((C7_hit_increments_counter { S3FIFO_init_default 1000 100 with
        main_cache := ⟨700, [⟨2, 50, 0, 0⟩, ⟨1, 50, 3, 0⟩]⟩ } ⟨1, 50, 0⟩ ⟨1, 50, 3, 0⟩
      (by decide) (by decide)).2.1 rfl rfl).1,
   ((C7_hit_increments_counter { S3FIFO_init_default 1000 100 with
        large_cache := ⟨200, [⟨1, 150, 7, 0⟩]⟩ } ⟨1, 150, 0⟩ ⟨1, 150, 7, 0⟩
      (by decide) (by decide)).2.2 rfl rfl).1⟩

/-! ## Facts about removal and in-place updates -/

theorem eraseP_last_of_nodup (l : List cache_obj_t) (c : cache_obj_t)
    (hnd : (l.map (fun o => o.obj_id)).Nodup) (hc : l.getLast? = some c) :
    l.eraseP (fun o => o.obj_id == c.obj_id) = l.dropLast := by
  induction l with
  | nil => simp at hc
  | cons a l ih =>
    cases l with
    | nil =>
      simp at hc
      subst hc
      simp
    | cons b l' =>
      rw [List.getLast?_cons_cons] at hc
      rw [List.map_cons, List.nodup_cons] at hnd
      have hcm : c ∈ b :: l' := List.mem_of_getLast?_eq_some hc
      have hne : a.obj_id ≠ c.obj_id := by
        intro h
        apply hnd.1
        rw [h]
        exact List.mem_map_of_mem _ hcm
      have hb : (a.obj_id == c.obj_id) = false := by simp [hne]
      rw [List.eraseP_cons, hb, cond_false, ih hnd.2 hc]
      simp [List.dropLast]

theorem sizes_update_tail (g : Int → Int) (l : List cache_obj_t) :
    (update_tail g l).map (fun o => (o.obj_size : Int)) =
      l.map (fun o => (o.obj_size : Int)) := by
  induction l with
  | nil => rfl
  | cons a l ih =>
    cases l with
    | nil => simp [update_tail]
    | cons b l' =>
      simp only [update_tail, List.map_cons] at ih ⊢
      rw [ih]

theorem FIFO_remove_insert_same (t : FIFO_cache) (c : cache_obj_t) :
    (FIFO_remove (FIFO_insert t (req_local c)) c.obj_id).1 = t := by
  simp [FIFO_remove, FIFO_insert, FIFO_find, req_local]

/-- Small-overflow eviction with a candidate whose score reaches the threshold: the
candidate is inserted into Main, Ghost is untouched, and the removal by id is applied to
Small. -/
theorem S3FIFO_evict_fifo_high (log : Nat → ℚ) (s : cache_t) (c : cache_obj_t)
    (hc : FIFO_to_evict s.fifo = some c) (hocc : FIFO_get_occupied_byte s.fifo > 0)
    (hscore : compute_weighted_score log c s ≥ SOME_SCORE_THRESHOLD) :
    S3FIFO_evict_fifo log s =
      { s with main_cache := FIFO_insert s.main_cache (req_local c),
               fifo := (FIFO_remove s.fifo c.obj_id).1 } := by
  simp [S3FIFO_evict_fifo, hocc, hc, hscore]

/-- Small-overflow eviction with a candidate whose score is below the threshold: the
candidate is recorded in Ghost, Main is untouched, and the removal by id is applied to
Small. -/
theorem S3FIFO_evict_fifo_low (log : Nat → ℚ) (s : cache_t) (c : cache_obj_t)
    (hc : FIFO_to_evict s.fifo = some c) (hocc : FIFO_get_occupied_byte s.fifo > 0)
    (hscore : compute_weighted_score log c s < SOME_SCORE_THRESHOLD) :
    S3FIFO_evict_fifo log s =
      { ghost_get s c with fifo := (FIFO_remove s.fifo c.obj_id).1 } := by
  have h : ¬ compute_weighted_score log c s ≥ SOME_SCORE_THRESHOLD := not_le.mpr hscore
  have hg : (ghost_get s c).fifo = s.fifo := by
    unfold ghost_get
    split <;> rfl
  simp [S3FIFO_evict_fifo, hocc, hc, h, hg]

/-- Large-overflow eviction with a candidate whose score reaches the threshold. -/
theorem S3FIFO_evict_lq_high (log : Nat → ℚ) (s : cache_t) (c : cache_obj_t)
    (hc : FIFO_to_evict s.large_cache = some c)
    (hocc : FIFO_get_occupied_byte s.large_cache > s.large_cache.cache_size)
    (hscore : compute_weighted_score log c s ≥ SOME_SCORE_THRESHOLD) :
    S3FIFO_evict_lq log s =
      { s with main_cache := FIFO_insert s.main_cache (req_local c),
               large_cache := (FIFO_remove s.large_cache c.obj_id).1 } := by
  simp [S3FIFO_evict_lq, hocc, hc, hscore]

/-- Large-overflow eviction with a candidate whose score is below the threshold. -/
theorem S3FIFO_evict_lq_low (log : Nat → ℚ) (s : cache_t) (c : cache_obj_t)
    (hc : FIFO_to_evict s.large_cache = some c)
    (hocc : FIFO_get_occupied_byte s.large_cache > s.large_cache.cache_size)
    (hscore : compute_weighted_score log c s < SOME_SCORE_THRESHOLD) :
    S3FIFO_evict_lq log s =
      { ghost_get s c with large_cache := (FIFO_remove s.large_cache c.obj_id).1 } := by
  have h : ¬ compute_weighted_score log c s ≥ SOME_SCORE_THRESHOLD := not_le.mpr hscore
  have hg : (ghost_get s c).large_cache = s.large_cache := by
    unfold ghost_get
    split <;> rfl
  simp [S3FIFO_evict_lq, hocc, hc, h, hg]

/-- Main-overflow eviction with a candidate whose score reaches the threshold: the copy
that is inserted is the object the removal by id finds, so Main keeps its residents in
their order, the oldest one with the decayed counter; nothing else changes. -/
theorem S3FIFO_evict_main_high (log : Nat → ℚ) (s : cache_t) (c : cache_obj_t)
    (hc : FIFO_to_evict s.main_cache = some c)
    (hocc : FIFO_get_occupied_byte s.main_cache > s.main_cache.cache_size)
    (hscore : compute_weighted_score log c s ≥ SOME_SCORE_THRESHOLD) :
    S3FIFO_evict_main log s =
      { s with main_cache :=
          { s.main_cache with q := update_tail (fun f => min f 3 - 1) s.main_cache.q } } := by
  simp [S3FIFO_evict_main, hocc, hc, hscore, FIFO_remove_insert_same]

/-- Main-overflow eviction with a candidate whose score is below the threshold. -/
theorem S3FIFO_evict_main_low (log : Nat → ℚ) (s : cache_t) (c : cache_obj_t)
    (hc : FIFO_to_evict s.main_cache = some c)
    (hocc : FIFO_get_occupied_byte s.main_cache > s.main_cache.cache_size)
    (hscore : compute_weighted_score log c s < SOME_SCORE_THRESHOLD) :
    S3FIFO_evict_main log s =
      { ghost_get s c with main_cache := (FIFO_remove s.main_cache c.obj_id).1 } := by
  have h : ¬ compute_weighted_score log c s ≥ SOME_SCORE_THRESHOLD := not_le.mpr hscore
  have hg : (ghost_get s c).main_cache = s.main_cache := by
    unfold ghost_get
    split <;> rfl
  simp [S3FIFO_evict_main, hocc, hc, h, hg]

theorem FIFO_remove_fst (t : FIFO_cache) (id : Nat) :
    (FIFO_remove t id).1 = { t with q := t.q.eraseP (fun o => o.obj_id == id) } := by
  unfold FIFO_remove
  cases h : FIFO_find t id with
  | some o => rfl
  | none =>
    have h1 : ∀ o ∈ t.q, ¬ (fun o : cache_obj_t => o.obj_id == id) o = true := by
      unfold FIFO_find at h
      rw [List.find?_eq_none] at h
      exact h
    simp only
    rw [List.eraseP_of_forall_not h1]

theorem occupied_eraseP_le (l : List cache_obj_t) (p : cache_obj_t → Bool) :
    ((l.eraseP p).map (fun o => (o.obj_size : Int))).sum ≤
      (l.map (fun o => (o.obj_size : Int))).sum := by
  induction l with
  | nil => simp
  | cons a l ih =>
    rw [List.eraseP_cons]
    cases hp : p a with
    | true =>
      simp only [cond_true, List.map_cons, List.sum_cons]
      have : (0 : Int) ≤ (a.obj_size : Int) := Int.ofNat_nonneg _
      omega
    | false =>
      simp only [cond_false, List.map_cons, List.sum_cons]
      omega

theorem occupied_dropLast (l : List cache_obj_t) (c : cache_obj_t)
    (hc : l.getLast? = some c) :
    (l.dropLast.map (fun o => (o.obj_size : Int))).sum + (c.obj_size : Int) =
      (l.map (fun o => (o.obj_size : Int))).sum := by
  have h : l.dropLast ++ [c] = l := List.dropLast_append_getLast? c (by simp [hc])
  conv_rhs => rw [← h]
  simp

theorem occupied_nonneg (t : FIFO_cache) : 0 ≤ FIFO_get_occupied_byte t := by
  unfold FIFO_get_occupied_byte
  apply List.sum_nonneg
  intro x hx
  rw [List.mem_map] at hx
  obtain ⟨o, -, rfl⟩ := hx
  exact Int.ofNat_nonneg _

theorem evict_step_ok_refl (s : cache_t) : evict_step_ok s s :=
  ⟨rfl, le_refl _, List.Sublist.refl _, List.Sublist.refl _⟩

theorem evict_step_ok_trans (s s1 s2 : cache_t) (h1 : evict_step_ok s s1)
    (h2 : evict_step_ok s1 s2) : evict_step_ok s s2 :=
  ⟨h2.1.trans h1.1, le_trans h2.2.1 h1.2.1, h2.2.2.1.trans h1.2.2.1,
    h2.2.2.2.trans h1.2.2.2⟩

theorem ghost_get_frame (s : cache_t) (c : cache_obj_t) :
    (ghost_get s c).cache_size = s.cache_size ∧ (ghost_get s c).fifo = s.fifo ∧
    (ghost_get s c).main_cache = s.main_cache ∧
    (ghost_get s c).large_cache = s.large_cache := by
  unfold ghost_get
  split <;> exact ⟨rfl, rfl, rfl, rfl⟩

theorem S3FIFO_evict_fifo_ok (log : Nat → ℚ) (s : cache_t)
    (hnd : (FIFO_ids s.fifo).Nodup) : evict_step_ok s (S3FIFO_evict_fifo log s) := by
  by_cases hocc : FIFO_get_occupied_byte s.fifo > 0
  · cases hc : FIFO_to_evict s.fifo with
    | none =>
      have : S3FIFO_evict_fifo log s = s := by simp [S3FIFO_evict_fifo, hocc, hc]
      rw [this]
      exact evict_step_ok_refl s
    | some c =>
      have hq : (FIFO_remove s.fifo c.obj_id).1 = { s.fifo with q := s.fifo.q.dropLast } := by
        rw [FIFO_remove_fst, eraseP_last_of_nodup s.fifo.q c hnd hc]
      have hsum := occupied_dropLast s.fifo.q c hc
      have hsub : (FIFO_ids ({ s.fifo with q := s.fifo.q.dropLast } : FIFO_cache)).Sublist
          (FIFO_ids s.fifo) := (List.dropLast_sublist _).map _
      by_cases hscore : compute_weighted_score log c s ≥ SOME_SCORE_THRESHOLD
      · rw [S3FIFO_evict_fifo_high log s c hc hocc hscore, hq]
        refine ⟨rfl, ?_, hsub, List.Sublist.refl _⟩
        simp only [S3FIFO_get_occupied_byte, FIFO_get_occupied_byte, FIFO_insert, req_local,
          List.map_cons, List.sum_cons]
        omega
      · rw [S3FIFO_evict_fifo_low log s c hc hocc (not_le.mp hscore), hq]
        obtain ⟨h1, -, h3, h4⟩ := ghost_get_frame s c
        refine ⟨h1, ?_, hsub, ?_⟩
        · simp only [S3FIFO_get_occupied_byte, h3, h4]
          have : (0 : Int) ≤ (c.obj_size : Int) := Int.ofNat_nonneg _
          simp only [FIFO_get_occupied_byte]
          omega
        · show (FIFO_ids (ghost_get s c).large_cache).Sublist _
          rw [h4]
  · have : S3FIFO_evict_fifo log s = s := by simp [S3FIFO_evict_fifo, hocc]
    rw [this]
    exact evict_step_ok_refl s

theorem S3FIFO_evict_lq_ok (log : Nat → ℚ) (s : cache_t)
    (hnd : (FIFO_ids s.large_cache).Nodup) : evict_step_ok s (S3FIFO_evict_lq log s) := by
  by_cases hocc : FIFO_get_occupied_byte s.large_cache > s.large_cache.cache_size
  · cases hc : FIFO_to_evict s.large_cache with
    | none =>
      have : S3FIFO_evict_lq log s = s := by simp [S3FIFO_evict_lq, hocc, hc]
      rw [this]
      exact evict_step_ok_refl s
    | some c =>
      have hq : (FIFO_remove s.large_cache c.obj_id).1 =
          { s.large_cache with q := s.large_cache.q.dropLast } := by
        rw [FIFO_remove_fst, eraseP_last_of_nodup s.large_cache.q c hnd hc]
      have hsum := occupied_dropLast s.large_cache.q c hc
      have hsub : (FIFO_ids ({ s.large_cache with q := s.large_cache.q.dropLast } :
          FIFO_cache)).Sublist (FIFO_ids s.large_cache) := (List.dropLast_sublist _).map _
      by_cases hscore : compute_weighted_score log c s ≥ SOME_SCORE_THRESHOLD
      · rw [S3FIFO_evict_lq_high log s c hc hocc hscore, hq]
        refine ⟨rfl, ?_, List.Sublist.refl _, hsub⟩
        simp only [S3FIFO_get_occupied_byte, FIFO_get_occupied_byte, FIFO_insert, req_local,
          List.map_cons, List.sum_cons]
        omega
      · rw [S3FIFO_evict_lq_low log s c hc hocc (not_le.mp hscore), hq]
        obtain ⟨h1, h2, h3, -⟩ := ghost_get_frame s c
        refine ⟨h1, ?_, ?_, hsub⟩
        · simp only [S3FIFO_get_occupied_byte, h2, h3]
          have : (0 : Int) ≤ (c.obj_size : Int) := Int.ofNat_nonneg _
          simp only [FIFO_get_occupied_byte]
          omega
        · show (FIFO_ids (ghost_get s c).fifo).Sublist _
          rw [h2]
  · have : S3FIFO_evict_lq log s = s := by simp [S3FIFO_evict_lq, hocc]
    rw [this]
    exact evict_step_ok_refl s

theorem S3FIFO_evict_main_ok (log : Nat → ℚ) (s : cache_t) :
    evict_step_ok s (S3FIFO_evict_main log s) := by
  by_cases hocc : FIFO_get_occupied_byte s.main_cache > s.main_cache.cache_size
  · cases hc : FIFO_to_evict s.main_cache with
    | none =>
      have : S3FIFO_evict_main log s = s := by simp [S3FIFO_evict_main, hocc, hc]
      rw [this]
      exact evict_step_ok_refl s
    | some c =>
      by_cases hscore : compute_weighted_score log c s ≥ SOME_SCORE_THRESHOLD
      · rw [S3FIFO_evict_main_high log s c hc hocc hscore]
        refine ⟨rfl, ?_, List.Sublist.refl _, List.Sublist.refl _⟩
        simp only [S3FIFO_get_occupied_byte, FIFO_get_occupied_byte, sizes_update_tail]
        exact le_refl _
      · rw [S3FIFO_evict_main_low log s c hc hocc (not_le.mp hscore), FIFO_remove_fst]
        obtain ⟨h1, h2, -, h4⟩ := ghost_get_frame s c
        refine ⟨h1, ?_, ?_, ?_⟩
        · simp only [S3FIFO_get_occupied_byte, h2, h4]
          have := occupied_eraseP_le s.main_cache.q (fun o => o.obj_id == c.obj_id)
          simp only [FIFO_get_occupied_byte]
          omega
        · show (FIFO_ids (ghost_get s c).fifo).Sublist _
          rw [h2]
        · show (FIFO_ids (ghost_get s c).large_cache).Sublist _
          rw [h4]
  · have : S3FIFO_evict_main log s = s := by simp [S3FIFO_evict_main, hocc]
    rw [this]
    exact evict_step_ok_refl s

theorem S3FIFO_evict_ok (log : Nat → ℚ) (s : cache_t)
    (hS : (FIFO_ids s.fifo).Nodup) (hL : (FIFO_ids s.large_cache).Nodup) :
    evict_step_ok s (S3FIFO_evict log s) := by
  unfold S3FIFO_evict
  split
  · exact S3FIFO_evict_fifo_ok log s hS
  · split
    · exact S3FIFO_evict_main_ok log s
    · split
      · exact S3FIFO_evict_lq_ok log s hL
      · exact evict_step_ok_refl s

theorem nodup_of_step (s s1 : cache_t) (h : evict_step_ok s s1)
    (hS : (FIFO_ids s.fifo).Nodup) (hL : (FIFO_ids s.large_cache).Nodup) :
    (FIFO_ids s1.fifo).Nodup ∧ (FIFO_ids s1.large_cache).Nodup :=
  ⟨h.2.2.1.nodup hS, h.2.2.2.nodup hL⟩

/-- The planner pass is the installation of the budgets followed by the evictions. -/
theorem DCP_check_and_adjust_eq (log : Nat → ℚ) (s : cache_t) :
    DCP_check_and_adjust log s = DCP_evictions log (DCP_budgets s) := rfl

theorem DCP_budgets_frame (s : cache_t) :
    (DCP_budgets s).cache_size = s.cache_size ∧ (DCP_budgets s).fifo.q = s.fifo.q ∧
    (DCP_budgets s).main_cache.q = s.main_cache.q ∧
    (DCP_budgets s).large_cache.q = s.large_cache.q ∧
    (DCP_budgets s).fifo_ghost = s.fifo_ghost := by
  unfold DCP_budgets
  simp only [normalize_ratios, resize_cache]
  split_ifs <;> exact ⟨rfl, rfl, rfl, rfl, rfl⟩

theorem DCP_evictions_ok (log : Nat → ℚ) (s3 : cache_t)
    (hS : (FIFO_ids s3.fifo).Nodup) (hL : (FIFO_ids s3.large_cache).Nodup) :
    evict_step_ok s3 (DCP_evictions log s3) := by
  unfold DCP_evictions
  have hs4 : evict_step_ok s3
      (if FIFO_get_occupied_byte s3.fifo > s3.fifo.cache_size then S3FIFO_evict_fifo log s3
       else s3) := by
    split
    · exact S3FIFO_evict_fifo_ok log s3 hS
    · exact evict_step_ok_refl s3
  simp only
  generalize (if FIFO_get_occupied_byte s3.fifo > s3.fifo.cache_size then
    S3FIFO_evict_fifo log s3 else s3) = s4 at hs4 ⊢
  have hs5 : evict_step_ok s3
      (if FIFO_get_occupied_byte s4.main_cache > s3.main_cache.cache_size then
        S3FIFO_evict_main log s4 else s4) := by
    split
    · exact evict_step_ok_trans _ _ _ hs4 (S3FIFO_evict_main_ok log s4)
    · exact hs4
  generalize (if FIFO_get_occupied_byte s4.main_cache > s3.main_cache.cache_size then
    S3FIFO_evict_main log s4 else s4) = s5 at hs5 ⊢
  have hn5 := nodup_of_step s3 s5 hs5 hS hL
  split
  · exact evict_step_ok_trans _ _ _ hs5 (S3FIFO_evict_lq_ok log s5 hn5.2)
  · exact hs5

theorem DCP_check_and_adjust_ok (log : Nat → ℚ) (s : cache_t)
    (hS : (FIFO_ids s.fifo).Nodup) (hL : (FIFO_ids s.large_cache).Nodup) :
    evict_step_ok s (DCP_check_and_adjust log s) := by
  rw [DCP_check_and_adjust_eq]
  obtain ⟨h0, h1, h2, h3, -⟩ := DCP_budgets_frame s
  have hs3 : evict_step_ok s (DCP_budgets s) := by
    refine ⟨h0, ?_, ?_, ?_⟩
    · simp only [S3FIFO_get_occupied_byte, FIFO_get_occupied_byte, h1, h2, h3]
      exact le_refl _
    · simp only [FIFO_ids, h1]
      exact List.Sublist.refl _
    · simp only [FIFO_ids, h3]
      exact List.Sublist.refl _
  have hn3 := nodup_of_step s _ hs3 hS hL
  exact evict_step_ok_trans _ _ _ hs3 (DCP_evictions_ok log _ hn3.1 hn3.2)

theorem evict_loop_ok (log : Nat → ℚ) (fuel : Nat) :
    ∀ (s s2 : cache_t) (req : request_t), (FIFO_ids s.fifo).Nodup →
      (FIFO_ids s.large_cache).Nodup → evict_loop log fuel s req = some s2 →
      evict_step_ok s s2 ∧
        S3FIFO_get_occupied_byte s2 + (req.obj_size : Int) ≤ s2.cache_size := by
  induction fuel with
  | zero =>
    intro s s2 req _ _ h
    unfold evict_loop at h
    split at h
    · cases h
    · cases h
      exact ⟨evict_step_ok_refl s, by omega⟩
  | succ n ih =>
    intro s s2 req hS hL h
    unfold evict_loop at h
    split at h
    · have hstep := S3FIFO_evict_ok log s hS hL
      have hn := nodup_of_step _ _ hstep hS hL
      obtain ⟨h1, h2⟩ := ih _ _ _ hn.1 hn.2 h
      exact ⟨evict_step_ok_trans _ _ _ hstep h1, h2⟩
    · cases h
      exact ⟨evict_step_ok_refl s, by omega⟩

/-- A mutating lookup changes neither the total capacity, nor the bytes of any tier, nor
the ids of Small and Large; when it reports a miss the id is neither in Small nor in
Large. -/
theorem S3FIFO_find_true_ok (s : cache_t) (req : request_t) :
    evict_step_ok s (S3FIFO_find s req true).1 ∧
    ((S3FIFO_find s req true).2 = none →
      req.obj_id ∉ FIFO_ids s.fifo ∧ req.obj_id ∉ FIFO_ids s.large_cache) := by
  cases hS : FIFO_find s.fifo req.obj_id with
  | some o =>
    rw [S3FIFO_find_true_small_hit s req o hS]
    refine ⟨⟨rfl, ?_, ?_, List.Sublist.refl _⟩, ?_⟩
    · simp only [S3FIFO_get_occupied_byte, FIFO_get_occupied_byte, sizes_update_found]
      exact le_refl _
    · simp only [FIFO_ids, ids_update_found]
      exact List.Sublist.refl _
    · intro h
      cases h
  | none =>
    obtain ⟨h1, h2, h3, h4, -, h6⟩ := S3FIFO_find_true_small_miss s req hS
    refine ⟨⟨h4, ?_, ?_, ?_⟩, ?_⟩
    · simp only [S3FIFO_get_occupied_byte, h1, h2, h3, FIFO_get_occupied_byte,
        sizes_update_found]
      exact le_refl _
    · rw [h1]
    · rw [h3]
      simp only [FIFO_ids, ids_update_found]
      exact List.Sublist.refl _
    · intro hnone
      rw [h6] at hnone
      refine ⟨(FIFO_find_eq_none _ _).mp hS, ?_⟩
      cases hL : FIFO_find s.large_cache req.obj_id with
      | none => exact (FIFO_find_eq_none _ _).mp hL
      | some o =>
        rw [hL] at hnone
        cases hnone

theorem S3FIFO_insert_inv (s : cache_t) (req : request_t)
    (hroom : S3FIFO_get_occupied_byte s + (req.obj_size : Int) ≤ s.cache_size)
    (hS : (FIFO_ids s.fifo).Nodup) (hL : (FIFO_ids s.large_cache).Nodup)
    (hnS : req.obj_id ∉ FIFO_ids s.fifo) (hnL : req.obj_id ∉ FIFO_ids s.large_cache) :
    capacity_inv (S3FIFO_insert s req).1 ∧ (S3FIFO_insert s req).1.cache_size = s.cache_size := by
  unfold capacity_inv S3FIFO_insert
  simp only [S3FIFO_get_occupied_byte, FIFO_get_occupied_byte, FIFO_ids] at *
  split_ifs
  · simp only [FIFO_insert, update_head, List.map_cons, List.sum_cons]
    exact ⟨⟨by omega, hS, hL⟩, trivial⟩
  · simp only [FIFO_insert, update_head, List.map_cons, List.sum_cons, List.nodup_cons]
    exact ⟨⟨by omega, hS, hnL, hL⟩, trivial⟩
  · simp only [FIFO_insert, update_head, List.map_cons, List.sum_cons, List.nodup_cons]
    exact ⟨⟨by omega, ⟨hnS, hS⟩, hL⟩, trivial⟩

theorem inv_of_step (s s1 : cache_t) (h : evict_step_ok s s1) (hinv : capacity_inv s) :
    capacity_inv s1 := by
  obtain ⟨h1, h2, h3, h4⟩ := h
  obtain ⟨i1, i2, i3⟩ := hinv
  exact ⟨by omega, h3.nodup i2, h4.nodup i3⟩

theorem cache_get_base_inv (log : Nat → ℚ) (fuel : Nat) (s s1 : cache_t) (req : request_t)
    (hit : Bool) (hinv : capacity_inv s)
    (h : cache_get_base log fuel s req = some (s1, hit)) :
    capacity_inv s1 ∧ s1.cache_size = s.cache_size := by
  obtain ⟨hf, hmiss⟩ := S3FIFO_find_true_ok s req
  have hinv1 := inv_of_step _ _ hf hinv
  unfold cache_get_base at h
  split at h
  · rename_i sa o heq
    cases h
    rw [heq] at hinv1 hf
    exact ⟨hinv1, hf.1⟩
  · rename_i sa heq
    rw [heq] at hinv1 hf hmiss
    obtain ⟨hnS, hnL⟩ := hmiss rfl
    split at h
    · split at h
      · rename_i s2 hloop
        cases h
        obtain ⟨hstep, hroom⟩ := evict_loop_ok log fuel sa s2 req hinv1.2.1 hinv1.2.2 hloop
        have hinv2 := inv_of_step _ _ hstep hinv1
        have hnS2 : req.obj_id ∉ FIFO_ids s2.fifo :=
          fun hm => hnS (hf.2.2.1.subset (hstep.2.2.1.subset hm))
        have hnL2 : req.obj_id ∉ FIFO_ids s2.large_cache :=
          fun hm => hnL (hf.2.2.2.subset (hstep.2.2.2.subset hm))
        obtain ⟨r1, r2⟩ := S3FIFO_insert_inv s2 req hroom hinv2.2.1 hinv2.2.2 hnS2 hnL2
        exact ⟨r1, by rw [r2, hstep.1, hf.1]⟩
      · cases h
    · cases h
      exact ⟨hinv1, hf.1⟩

theorem S3FIFO_get_inv (log : Nat → ℚ) (fuel : Nat) (s s1 : cache_t) (req : request_t)
    (hit : Bool) (hinv : capacity_inv s)
    (h : S3FIFO_get log fuel s req = some (s1, hit)) :
    capacity_inv s1 ∧ s1.cache_size = s.cache_size := by
  unfold S3FIFO_get at h
  have hd := DCP_check_and_adjust_ok log s hinv.2.1 hinv.2.2
  obtain ⟨r1, r2⟩ := cache_get_base_inv log fuel _ s1 req hit (inv_of_step _ _ hd hinv) h
  exact ⟨r1, by rw [r2, hd.1]⟩

theorem run_requests_inv (log : Nat → ℚ) (fuel : Nat) (reqs : List request_t) :
    ∀ (s s1 : cache_t), capacity_inv s → run_requests log fuel s reqs = some s1 →
      capacity_inv s1 ∧ s1.cache_size = s.cache_size := by
  induction reqs with
  | nil =>
    intro s s1 hinv h
    unfold run_requests at h
    cases h
    exact ⟨hinv, rfl⟩
  | cons req rest ih =>
    intro s s1 hinv h
    unfold run_requests at h
    split at h
    · rename_i sa hit hget
      obtain ⟨r1, r2⟩ := S3FIFO_get_inv log fuel s sa req hit hinv hget
      obtain ⟨q1, q2⟩ := ih sa s1 r1 h
      exact ⟨q1, by rw [q2, r2]⟩
    · cases h

theorem S3FIFO_init_inv (cache_size : Int) (s_ratio m_ratio lq_ratio ghost_size_ratio : ℚ)
    (alpha beta gamma : ℚ) (size_threshold : Nat) (hcap : 0 ≤ cache_size) :
    capacity_inv (S3FIFO_init cache_size s_ratio m_ratio lq_ratio ghost_size_ratio
      alpha beta gamma size_threshold) := by
  simp [capacity_inv, S3FIFO_init, S3FIFO_get_occupied_byte, FIFO_get_occupied_byte,
    FIFO_init, FIFO_ids, hcap]

/-- C2, refuted on a reachable state: capacity 1000, default parameters (budget of Small
100), threshold 100. After the requests for the objects 1, 2, 3 of size 50 each, Small
holds 150 bytes: the request path only checks the total capacity before it admits. -/
theorem C2_small_exceeds_its_budget :
    (run_requests log_floor 0 (S3FIFO_init_default 1000 100)
        [⟨1, 50, 0⟩, ⟨2, 50, 0⟩, ⟨3, 50, 0⟩]).map
      (fun s => (FIFO_get_occupied_byte s.fifo, s.fifo.cache_size,
        decide (FIFO_get_occupied_byte s.fifo ≤ s.fifo.cache_size))) =
      some (150, 100, false) := by
  decide!

/-- C2 as amended: from the empty cache of a non-negative capacity, after every sequence
of requests that complete (each eviction loop ends within its fuel), the bytes of Small,
Main and Large together are at most the total capacity, and the assertion at the entry of
`S3FIFO_get` holds. -/
theorem C2_total_capacity_bound (log : Nat → ℚ) (fuel : Nat) (cache_size : Int)
    (s_ratio m_ratio lq_ratio ghost_size_ratio alpha beta gamma : ℚ) (size_threshold : Nat)
    (reqs : List request_t) (s : cache_t) (hcap : 0 ≤ cache_size)
    (hrun : run_requests log fuel (S3FIFO_init cache_size s_ratio m_ratio lq_ratio
      ghost_size_ratio alpha beta gamma size_threshold) reqs = some s) :
    FIFO_get_occupied_byte s.fifo + FIFO_get_occupied_byte s.main_cache +
      FIFO_get_occupied_byte s.large_cache ≤ cache_size ∧
    s.cache_size = cache_size ∧ S3FIFO_get_assertion s := by
  obtain ⟨hinv, hsize⟩ := run_requests_inv log fuel reqs _ s
    (S3FIFO_init_inv cache_size s_ratio m_ratio lq_ratio ghost_size_ratio alpha beta gamma
      size_threshold hcap) hrun
  have hsz : s.cache_size = cache_size := hsize
  have htot := hinv.1
  unfold S3FIFO_get_occupied_byte at htot
  have hL := occupied_nonneg s.large_cache
  refine ⟨by omega, hsz, ?_⟩
  unfold S3FIFO_get_assertion
  omega

/-- C2 as amended, at a concrete input: capacity 1000, default parameters, the five
requests 1, 2, 3, 1, 1 of size 50 all complete and leave at most 1000 bytes resident. -/
theorem C2_total_capacity_bound_witness :
    (0 : Int) ≤ 1000 ∧
    ∃ s, run_requests log_floor 0 (S3FIFO_init_default 1000 100)
        [⟨1, 50, 0⟩, ⟨2, 50, 0⟩, ⟨3, 50, 0⟩, ⟨1, 50, 0⟩, ⟨1, 50, 0⟩] = some s ∧
      FIFO_get_occupied_byte s.fifo + FIFO_get_occupied_byte s.main_cache +
        FIFO_get_occupied_byte s.large_cache ≤ 1000 := by
  refine ⟨by decide, ?_⟩
  have hsome : (run_requests log_floor 0 (S3FIFO_init_default 1000 100)
        [⟨1, 50, 0⟩, ⟨2, 50, 0⟩, ⟨3, 50, 0⟩, ⟨1, 50, 0⟩, ⟨1, 50, 0⟩]).isSome = true := by
    decide!
  obtain ⟨s, hs⟩ := Option.isSome_iff_exists.mp hsome
  exact ⟨s, hs, (C2_total_capacity_bound log_floor 0 1000 (round_double (1 / 10))
    (round_double (7 / 10)) (round_double (2 / 10)) (round_double (9 / 10))
    1 (1 / 2) 2 100 _ s (by decide) hs).1⟩

/-- The step that breaks tier exclusivity, for every logarithm and every state: a request
for an id that is resident in Main only, is not in Ghost, can be admitted and fits in the
total capacity is answered as a miss and admitted a second time, so that afterwards the id
is resident in Main and also in Small or Large. -/
theorem cache_get_base_readmits_main_resident (log : Nat → ℚ) (fuel : Nat) (s : cache_t)
    (req : request_t) (o : cache_obj_t)
    (hS : FIFO_find s.fifo req.obj_id = none)
    (hM : FIFO_find s.main_cache req.obj_id = some o)
    (hL : FIFO_find s.large_cache req.obj_id = none)
    (hG : ∀ g, s.fifo_ghost = some g → FIFO_find g req.obj_id = none)
    (hcan : S3FIFO_can_insert s req = true)
    (hroom : S3FIFO_get_occupied_byte s + (req.obj_size : Int) ≤ s.cache_size) :
    ∃ s1, cache_get_base log fuel s req = some (s1, false) ∧
      req.obj_id ∈ FIFO_ids s1.main_cache ∧
      (req.obj_id ∈ FIFO_ids s1.fifo ∨ req.obj_id ∈ FIFO_ids s1.large_cache) := by
  have hLq : update_found freq_incr req.obj_id s.large_cache.q = s.large_cache.q :=
    update_found_of_find_none _ _ _ hL
  have hfind : S3FIFO_find s req true =
      ({ s with hit_on_ghost := false,
                main_cache :=
                  { s.main_cache with
                    q := update_found freq_incr req.obj_id s.main_cache.q } }, none) := by
    cases hg : s.fifo_ghost with
    | none => simp [S3FIFO_find, hS, hM, hL, hg]
    | some g =>
      have hr : (FIFO_remove g req.obj_id).2 = false := by simp [FIFO_remove, hG g hg]
      simp [S3FIFO_find, hS, hM, hL, hg, hr]
  have hmem : req.obj_id ∈ FIFO_ids ({ s.main_cache with
      q := update_found freq_incr req.obj_id s.main_cache.q } : FIFO_cache) := by
    simp only [FIFO_ids, ids_update_found]
    exact mem_ids_of_find _ _ _ hM
  have hloop : ∀ s1 : cache_t,
      S3FIFO_get_occupied_byte s1 + (req.obj_size : Int) ≤ s1.cache_size →
      evict_loop log fuel s1 req = some s1 := by
    intro s1 h1
    cases fuel with
    | zero => simp [evict_loop, not_lt.mpr h1]
    | succ n => simp [evict_loop, not_lt.mpr h1]
  have hocc : S3FIFO_get_occupied_byte
      ({ s with
          hit_on_ghost := false,
          main_cache :=
            { s.main_cache with q := update_found freq_incr req.obj_id s.main_cache.q } } :
        cache_t) = S3FIFO_get_occupied_byte s := by
    simp only [S3FIFO_get_occupied_byte, FIFO_get_occupied_byte, sizes_update_found]
  have hcan1 : S3FIFO_can_insert
      ({ s with
          hit_on_ghost := false,
          main_cache :=
            { s.main_cache with q := update_found freq_incr req.obj_id s.main_cache.q } } :
        cache_t) req = true := hcan
  unfold cache_get_base
  rw [hfind]
  simp only [hcan1, if_true]
  rw [hloop _ (by rw [hocc]; exact hroom)]
  refine ⟨_, rfl, ?_, ?_⟩
  · unfold S3FIFO_insert
    simp only [Bool.false_eq_true, if_false]
    split_ifs <;> exact hmem
  · unfold S3FIFO_insert
    simp only [Bool.false_eq_true, if_false]
    split_ifs
    · right
      simp [FIFO_ids, FIFO_insert, update_head]
    · left
      simp [FIFO_ids, FIFO_insert, update_head]

/-- C1, evaluated at the failing input: capacity 1000, default parameters, threshold 100,
requests for the objects 1, 2, 3, 1, 1 (size 50 each). All five requests complete, and
afterwards object 1 is resident in Small and in Main at once. -/
theorem C1_tier_exclusivity_violated :
    ∃ s, run_requests log_floor 0 (S3FIFO_init_default 1000 100)
        [⟨1, 50, 0⟩, ⟨2, 50, 0⟩, ⟨3, 50, 0⟩, ⟨1, 50, 0⟩, ⟨1, 50, 0⟩] = some s ∧
      1 ∈ FIFO_ids s.fifo ∧ 1 ∈ FIFO_ids s.main_cache ∧ ¬ tier_exclusive s := by
  have h : (run_requests log_floor 0 (S3FIFO_init_default 1000 100)
        [⟨1, 50, 0⟩, ⟨2, 50, 0⟩, ⟨3, 50, 0⟩, ⟨1, 50, 0⟩, ⟨1, 50, 0⟩]).map
      (fun s => (FIFO_ids s.fifo, FIFO_ids s.main_cache)) = some ([1, 3, 2], [1]) := by
    decide!
  cases hrun : run_requests log_floor 0 (S3FIFO_init_default 1000 100)
        [⟨1, 50, 0⟩, ⟨2, 50, 0⟩, ⟨3, 50, 0⟩, ⟨1, 50, 0⟩, ⟨1, 50, 0⟩] with
  | none =>
    rw [hrun] at h
    cases h
  | some s =>
    rw [hrun] at h
    simp only [Option.map_some', Option.some.injEq, Prod.mk.injEq] at h
    have h1 : 1 ∈ FIFO_ids s.fifo := by rw [h.1]; decide
    have h2 : 1 ∈ FIFO_ids s.main_cache := by rw [h.2]; decide
    refine ⟨s, rfl, h1, h2, ?_⟩
    intro hex
    have := hex 1
    unfold tier_count at this
    simp only [h1, h2, if_true] at this
    omega


/-! ## Well-formedness of Ghost on every reachable state -/

theorem FIFO_evict_until_sublist (n : Nat) :
    ∀ (t : FIFO_cache) (size : Nat),
      (FIFO_ids (FIFO_evict_until n t size)).Sublist (FIFO_ids t) := by
  induction n with
  | zero =>
    intro t size
    exact List.Sublist.refl _
  | succ n ih =>
    intro t size
    unfold FIFO_evict_until
    split
    · exact (ih (FIFO_evict t) size).trans ((List.dropLast_sublist _).map _)
    · exact List.Sublist.refl _

theorem FIFO_get_nodup (g : FIFO_cache) (req : request_t) (h : (FIFO_ids g).Nodup) :
    (FIFO_ids (FIFO_get g req)).Nodup := by
  unfold FIFO_get
  cases hf : FIFO_find g req.obj_id with
  | some o => exact h
  | none =>
    have hsub := FIFO_evict_until_sublist g.q.length g req.obj_size
    have hnot : req.obj_id ∉ FIFO_ids g := (FIFO_find_eq_none g req.obj_id).mp hf
    show (FIFO_ids (FIFO_insert (FIFO_evict_until g.q.length g req.obj_size) req)).Nodup
    simp only [FIFO_ids, FIFO_insert, List.map_cons, List.nodup_cons]
    exact ⟨fun hm => hnot (hsub.subset hm), hsub.nodup h⟩

theorem ghost_get_inv (s : cache_t) (c : cache_obj_t) (h : ghost_inv s) :
    ghost_inv (ghost_get s c) := by
  unfold ghost_get
  cases hg : s.fifo_ghost with
  | none =>
    intro g hg1
    simp only [hg] at hg1
    cases hg1
  | some g0 =>
    intro g hg1
    simp only [Option.some.injEq] at hg1
    rw [← hg1]
    exact FIFO_get_nodup g0 (req_local c) (h g0 hg)

theorem ghost_inv_of_eq (s s1 : cache_t) (heq : s1.fifo_ghost = s.fifo_ghost)
    (h : ghost_inv s) : ghost_inv s1 := by
  intro g hg
  exact h g (heq ▸ hg)

theorem S3FIFO_evict_fifo_ghost_inv (log : Nat → ℚ) (s : cache_t) (h : ghost_inv s) :
    ghost_inv (S3FIFO_evict_fifo log s) := by
  by_cases hocc : FIFO_get_occupied_byte s.fifo > 0
  · cases hc : FIFO_to_evict s.fifo with
    | none =>
      have : S3FIFO_evict_fifo log s = s := by simp [S3FIFO_evict_fifo, hocc, hc]
      rw [this]
      exact h
    | some c =>
      by_cases hscore : compute_weighted_score log c s ≥ SOME_SCORE_THRESHOLD
      · rw [S3FIFO_evict_fifo_high log s c hc hocc hscore]
        exact ghost_inv_of_eq s _ rfl h
      · rw [S3FIFO_evict_fifo_low log s c hc hocc (not_le.mp hscore)]
        exact ghost_inv_of_eq (ghost_get s c) _ rfl (ghost_get_inv s c h)
  · have : S3FIFO_evict_fifo log s = s := by simp [S3FIFO_evict_fifo, hocc]
    rw [this]
    exact h

theorem S3FIFO_evict_main_ghost_inv (log : Nat → ℚ) (s : cache_t) (h : ghost_inv s) :
    ghost_inv (S3FIFO_evict_main log s) := by
  by_cases hocc : FIFO_get_occupied_byte s.main_cache > s.main_cache.cache_size
  · cases hc : FIFO_to_evict s.main_cache with
    | none =>
      have : S3FIFO_evict_main log s = s := by simp [S3FIFO_evict_main, hocc, hc]
      rw [this]
      exact h
    | some c =>
      by_cases hscore : compute_weighted_score log c s ≥ SOME_SCORE_THRESHOLD
      · rw [S3FIFO_evict_main_high log s c hc hocc hscore]
        exact ghost_inv_of_eq s _ rfl h
      · rw [S3FIFO_evict_main_low log s c hc hocc (not_le.mp hscore)]
        exact ghost_inv_of_eq (ghost_get s c) _ rfl (ghost_get_inv s c h)
  · have : S3FIFO_evict_main log s = s := by simp [S3FIFO_evict_main, hocc]
    rw [this]
    exact h

theorem S3FIFO_evict_lq_ghost_inv (log : Nat → ℚ) (s : cache_t) (h : ghost_inv s) :
    ghost_inv (S3FIFO_evict_lq log s) := by
  by_cases hocc : FIFO_get_occupied_byte s.large_cache > s.large_cache.cache_size
  · cases hc : FIFO_to_evict s.large_cache with
    | none =>
      have : S3FIFO_evict_lq log s = s := by simp [S3FIFO_evict_lq, hocc, hc]
      rw [this]
      exact h
    | some c =>
      by_cases hscore : compute_weighted_score log c s ≥ SOME_SCORE_THRESHOLD
      · rw [S3FIFO_evict_lq_high log s c hc hocc hscore]
        exact ghost_inv_of_eq s _ rfl h
      · rw [S3FIFO_evict_lq_low log s c hc hocc (not_le.mp hscore)]
        exact ghost_inv_of_eq (ghost_get s c) _ rfl (ghost_get_inv s c h)
  · have : S3FIFO_evict_lq log s = s := by simp [S3FIFO_evict_lq, hocc]
    rw [this]
    exact h

theorem S3FIFO_evict_ghost_inv (log : Nat → ℚ) (s : cache_t) (h : ghost_inv s) :
    ghost_inv (S3FIFO_evict log s) := by
  unfold S3FIFO_evict
  split
  · exact S3FIFO_evict_fifo_ghost_inv log s h
  · split
    · exact S3FIFO_evict_main_ghost_inv log s h
    · split
      · exact S3FIFO_evict_lq_ghost_inv log s h
      · exact h

theorem DCP_check_and_adjust_ghost_inv (log : Nat → ℚ) (s : cache_t) (h : ghost_inv s) :
    ghost_inv (DCP_check_and_adjust log s) := by
  rw [DCP_check_and_adjust_eq]
  have h3 : ghost_inv (DCP_budgets s) :=
    ghost_inv_of_eq s _ (DCP_budgets_frame s).2.2.2.2 h
  generalize DCP_budgets s = s3 at h3
  unfold DCP_evictions
  have h4 : ghost_inv (if FIFO_get_occupied_byte s3.fifo > s3.fifo.cache_size then
      S3FIFO_evict_fifo log s3 else s3) := by
    split
    · exact S3FIFO_evict_fifo_ghost_inv log s3 h3
    · exact h3
  simp only
  generalize (if FIFO_get_occupied_byte s3.fifo > s3.fifo.cache_size then
      S3FIFO_evict_fifo log s3 else s3) = s4 at h4 ⊢
  have h5 : ghost_inv (if FIFO_get_occupied_byte s4.main_cache > s3.main_cache.cache_size then
      S3FIFO_evict_main log s4 else s4) := by
    split
    · exact S3FIFO_evict_main_ghost_inv log s4 h4
    · exact h4
  generalize (if FIFO_get_occupied_byte s4.main_cache > s3.main_cache.cache_size then
      S3FIFO_evict_main log s4 else s4) = s5 at h5 ⊢
  split
  · exact S3FIFO_evict_lq_ghost_inv log s5 h5
  · exact h5

theorem evict_loop_ghost_inv (log : Nat → ℚ) (fuel : Nat) :
    ∀ (s s2 : cache_t) (req : request_t), ghost_inv s →
      evict_loop log fuel s req = some s2 → ghost_inv s2 := by
  induction fuel with
  | zero =>
    intro s s2 req hinv h
    unfold evict_loop at h
    split at h
    · cases h
    · cases h
      exact hinv
  | succ n ih =>
    intro s s2 req hinv h
    unfold evict_loop at h
    split at h
    · exact ih _ _ _ (S3FIFO_evict_ghost_inv log s hinv) h
    · cases h
      exact hinv

theorem S3FIFO_find_false_state (s : cache_t) (req : request_t) :
    (S3FIFO_find s req false).1 = s := by
  unfold S3FIFO_find
  simp only [Bool.not_false, if_true]
  split
  · rfl
  · split
    · rfl
    · split <;> rfl

theorem S3FIFO_find_ghost_inv (s : cache_t) (req : request_t) (b : Bool)
    (h : ghost_inv s) : ghost_inv (S3FIFO_find s req b).1 := by
  cases b with
  | false =>
    rw [S3FIFO_find_false_state s req]
    exact h
  | true =>
    cases hS : FIFO_find s.fifo req.obj_id with
    | some o =>
      rw [S3FIFO_find_true_small_hit s req o hS]
      exact ghost_inv_of_eq s _ rfl h
    | none =>
      have hgh : (S3FIFO_find s req true).1.fifo_ghost = s.fifo_ghost ∨
          ∃ g, s.fifo_ghost = some g ∧
            (S3FIFO_find s req true).1.fifo_ghost = some (FIFO_remove g req.obj_id).1 := by
        simp only [S3FIFO_find, Bool.not_true, Bool.false_eq_true, if_false, hS]
        cases hg : s.fifo_ghost with
        | none =>
          left
          cases hM : FIFO_find s.main_cache req.obj_id <;>
            cases hL : FIFO_find s.large_cache req.obj_id <;> simp [hM, hL, hg]
        | some g =>
          by_cases hr : (FIFO_remove g req.obj_id).2 = true
          · right
            refine ⟨g, rfl, ?_⟩
            cases hM : FIFO_find s.main_cache req.obj_id <;>
              cases hL : FIFO_find s.large_cache req.obj_id <;> simp [hM, hL, hr]
          · left
            cases hM : FIFO_find s.main_cache req.obj_id <;>
              cases hL : FIFO_find s.large_cache req.obj_id <;> simp [hM, hL, hr]
      rcases hgh with heq | ⟨g, hg, heq⟩
      · exact ghost_inv_of_eq s _ heq h
      · intro g1 hg1
        rw [heq] at hg1
        simp only [Option.some.injEq] at hg1
        rw [← hg1, FIFO_remove_fst]
        exact (ids_eraseP_sublist g.q req.obj_id).nodup (h g hg)

theorem S3FIFO_insert_ghost (s : cache_t) (req : request_t) :
    (S3FIFO_insert s req).1.fifo_ghost = s.fifo_ghost := by
  unfold S3FIFO_insert
  split_ifs <;> rfl

theorem cache_get_base_ghost_inv (log : Nat → ℚ) (fuel : Nat) (s s1 : cache_t)
    (req : request_t) (hit : Bool) (hinv : ghost_inv s)
    (h : cache_get_base log fuel s req = some (s1, hit)) : ghost_inv s1 := by
  have hf := S3FIFO_find_ghost_inv s req true hinv
  unfold cache_get_base at h
  split at h
  · rename_i sa o heq
    cases h
    rw [heq] at hf
    exact hf
  · rename_i sa heq
    rw [heq] at hf
    split at h
    · split at h
      · rename_i s2 hloop
        cases h
        exact ghost_inv_of_eq s2 _ (S3FIFO_insert_ghost s2 req)
          (evict_loop_ghost_inv log fuel sa s2 req hf hloop)
      · cases h
    · cases h
      exact hf

theorem run_requests_ghost_inv (log : Nat → ℚ) (fuel : Nat) (reqs : List request_t) :
    ∀ (s s1 : cache_t), ghost_inv s → run_requests log fuel s reqs = some s1 →
      ghost_inv s1 := by
  induction reqs with
  | nil =>
    intro s s1 hinv h
    unfold run_requests at h
    cases h
    exact hinv
  | cons req rest ih =>
    intro s s1 hinv h
    unfold run_requests at h
    split at h
    · rename_i sa hit hget
      unfold S3FIFO_get at hget
      exact ih sa s1 (cache_get_base_ghost_inv log fuel _ sa req hit
        (DCP_check_and_adjust_ghost_inv log s hinv) hget) h
    · cases h

/-- Every state reached from the empty cache by requests that complete is well formed:
Small, Large and Ghost hold each id at most once. These are the side conditions of the
statements about Ghost bypass and demotion to Ghost. -/
theorem reachable_well_formed (log : Nat → ℚ) (fuel : Nat) (cache_size : Int)
    (s_ratio m_ratio lq_ratio ghost_size_ratio alpha beta gamma : ℚ) (size_threshold : Nat)
    (reqs : List request_t) (s : cache_t) (hcap : 0 ≤ cache_size)
    (hrun : run_requests log fuel (S3FIFO_init cache_size s_ratio m_ratio lq_ratio
      ghost_size_ratio alpha beta gamma size_threshold) reqs = some s) :
    (FIFO_ids s.fifo).Nodup ∧ (FIFO_ids s.large_cache).Nodup ∧
    ∀ g, s.fifo_ghost = some g → (FIFO_ids g).Nodup := by
  obtain ⟨hinv, -⟩ := run_requests_inv log fuel reqs _ s
    (S3FIFO_init_inv cache_size s_ratio m_ratio lq_ratio ghost_size_ratio alpha beta gamma
      size_threshold hcap) hrun
  refine ⟨hinv.2.1, hinv.2.2, ?_⟩
  apply run_requests_ghost_inv log fuel reqs _ s _ hrun
  intro g hg
  unfold S3FIFO_init at hg
  simp only at hg
  split_ifs at hg
  · cases hg
    simp [FIFO_ids, FIFO_init]

/-! ## Rounding to a double -/

theorem log2_fuel_eq (fuel : Nat) : ∀ n : Nat, n ≤ fuel → log2_fuel fuel n = Nat.log2 n := by
  induction fuel with
  | zero =>
    intro n h
    have h0 : n = 0 := by omega
    subst h0
    rw [Nat.log2]
    simp [log2_fuel]
  | succ k ih =>
    intro n h
    rw [Nat.log2]
    unfold log2_fuel
    split_ifs with h2
    · rw [ih (n / 2) (by omega)]
    · rfl

theorem nat_log2_eq (n : Nat) : nat_log2 n = Nat.log2 n :=
  log2_fuel_eq n n (le_refl n)

theorem pow2_eq_zpow (k : Int) : pow2 k = (2 : ℚ) ^ k := by
  unfold pow2
  split
  · rename_i h
    obtain ⟨n, rfl⟩ := Int.eq_ofNat_of_zero_le h
    simp
  · rename_i h
    have hk : 0 ≤ -k := by omega
    obtain ⟨n, hn⟩ := Int.eq_ofNat_of_zero_le hk
    have hk2 : k = -(n : Int) := by omega
    rw [hn, hk2]
    simp

theorem pow2_pos (k : Int) : 0 < pow2 k := by
  rw [pow2_eq_zpow]
  positivity

theorem round_half_even_err (m : ℚ) : |((round_half_even m : Int) : ℚ) - m| ≤ 1 / 2 := by
  have h1 : ((⌊m⌋ : Int) : ℚ) ≤ m := Int.floor_le m
  have h2 : m < ((⌊m⌋ : Int) : ℚ) + 1 := Int.lt_floor_add_one m
  unfold round_half_even
  rw [abs_le]
  split_ifs with a b c
  · constructor <;> linarith
  · push_cast
    constructor <;> linarith
  · constructor <;> linarith
  · push_cast
    constructor <;> linarith

theorem ilog2_le (x : ℚ) (hx : x ≠ 0) : pow2 (ilog2 x) ≤ |x| := by
  unfold ilog2
  split
  · rename_i h
    exact h
  · rw [nat_log2_eq, nat_log2_eq]
    have hnum : x.num.natAbs ≠ 0 := by
      simpa using hx
    have h1 : 2 ^ Nat.log2 x.num.natAbs ≤ x.num.natAbs := Nat.log2_self_le hnum
    have h2 : x.den < 2 ^ (Nat.log2 x.den + 1) := Nat.lt_log2_self
    have hden : (0 : ℚ) < (x.den : ℚ) := by exact_mod_cast x.pos
    have habs : |x| = (x.num.natAbs : ℚ) / (x.den : ℚ) := by
      conv_lhs => rw [← Rat.num_div_den x]
      rw [abs_div, abs_of_pos hden]
      congr 1
      rw [Nat.cast_natAbs, Int.cast_abs]
    rw [habs, pow2_eq_zpow, le_div_iff₀ hden]
    have e : (2 : ℚ) ^ ((Nat.log2 x.num.natAbs : Int) - (Nat.log2 x.den : Int) - 1) =
        (2 : ℚ) ^ (Nat.log2 x.num.natAbs) / (2 : ℚ) ^ (Nat.log2 x.den + 1) := by
      rw [sub_sub, zpow_sub₀ (by norm_num : (2 : ℚ) ≠ 0)]
      congr 1
      · exact zpow_natCast _ _
      · rw [← zpow_natCast]
        congr 1
    rw [e, div_mul_eq_mul_div, div_le_iff₀ (by positivity)]
    have h1q : (2 : ℚ) ^ Nat.log2 x.num.natAbs ≤ (x.num.natAbs : ℚ) := by exact_mod_cast h1
    have h2q : (x.den : ℚ) ≤ (2 : ℚ) ^ (Nat.log2 x.den + 1) := by exact_mod_cast h2.le
    calc (2 : ℚ) ^ Nat.log2 x.num.natAbs * (x.den : ℚ)
        ≤ (x.num.natAbs : ℚ) * (2 : ℚ) ^ (Nat.log2 x.den + 1) :=
          mul_le_mul h1q h2q hden.le (by positivity)

/-- Rounding to a double changes a number by at most `2 ^ -53` of its size. -/
theorem round_double_err (x : ℚ) : |round_double x - x| ≤ |x| / 2 ^ 53 := by
  unfold round_double
  split
  · rename_i h
    simp [h]
  · rename_i hx
    have hp := pow2_pos (ilog2 x - 52)
    have herr := round_half_even_err (x / pow2 (ilog2 x - 52))
    have hlog := ilog2_le x hx
    have hsplit : pow2 (ilog2 x) = pow2 (ilog2 x - 52) * 2 ^ 52 := by
      rw [pow2_eq_zpow, pow2_eq_zpow, zpow_sub₀ (by norm_num : (2 : ℚ) ≠ 0)]
      norm_num
    have heq : ((round_half_even (x / pow2 (ilog2 x - 52)) : Int) : ℚ) * pow2 (ilog2 x - 52) - x =
        (((round_half_even (x / pow2 (ilog2 x - 52)) : Int) : ℚ) - x / pow2 (ilog2 x - 52)) *
          pow2 (ilog2 x - 52) := by
      field_simp
    rw [heq, abs_mul, abs_of_pos hp]
    have h1 : |((round_half_even (x / pow2 (ilog2 x - 52)) : Int) : ℚ) -
        x / pow2 (ilog2 x - 52)| * pow2 (ilog2 x - 52) ≤ 1 / 2 * pow2 (ilog2 x - 52) :=
      mul_le_mul_of_nonneg_right herr hp.le
    rw [hsplit] at hlog
    rw [le_div_iff₀ (by positivity)]
    nlinarith

theorem round_double_bounds (x : ℚ) (hx : 0 ≤ x) :
    (1 - 1 / 2 ^ 53) * x ≤ round_double x ∧ round_double x ≤ (1 + 1 / 2 ^ 53) * x := by
  have h := round_double_err x
  rw [abs_of_nonneg hx, abs_le] at h
  constructor <;> linarith [h.1, h.2]

theorem round_double_pos (x : ℚ) (hx : 0 < x) : 0 < round_double x := by
  have h := (round_double_bounds x hx.le).1
  have : 0 < (1 - 1 / 2 ^ 53 : ℚ) * x := mul_pos (by norm_num) hx
  linarith

theorem round_double_nonneg (x : ℚ) (hx : 0 ≤ x) : 0 ≤ round_double x := by
  have h := (round_double_bounds x hx).1
  have : 0 ≤ (1 - 1 / 2 ^ 53 : ℚ) * x := mul_nonneg (by norm_num) hx
  linarith

theorem ilog2_lt (x : ℚ) : |x| < pow2 (ilog2 x + 1) := by
  unfold ilog2
  split
  · rw [nat_log2_eq, nat_log2_eq]
    have h1 : x.num.natAbs < 2 ^ (Nat.log2 x.num.natAbs + 1) := Nat.lt_log2_self
    have h2 : 2 ^ Nat.log2 x.den ≤ x.den := Nat.log2_self_le x.den_nz
    have hden : (0 : ℚ) < (x.den : ℚ) := by exact_mod_cast x.pos
    have habs : |x| = (x.num.natAbs : ℚ) / (x.den : ℚ) := by
      conv_lhs => rw [← Rat.num_div_den x]
      rw [abs_div, abs_of_pos hden]
      congr 1
      rw [Nat.cast_natAbs, Int.cast_abs]
    rw [habs, pow2_eq_zpow, div_lt_iff₀ hden]
    have e : (2 : ℚ) ^ ((Nat.log2 x.num.natAbs : Int) - (Nat.log2 x.den : Int) + 1) =
        (2 : ℚ) ^ (Nat.log2 x.num.natAbs + 1) / (2 : ℚ) ^ (Nat.log2 x.den) := by
      rw [sub_add_eq_add_sub, zpow_sub₀ (by norm_num : (2 : ℚ) ≠ 0)]
      congr 1
      · rw [← zpow_natCast]
        congr 1
      · exact zpow_natCast _ _
    rw [e, div_mul_eq_mul_div, lt_div_iff₀ (by positivity)]
    have h1q : (x.num.natAbs : ℚ) < (2 : ℚ) ^ (Nat.log2 x.num.natAbs + 1) := by
      exact_mod_cast h1
    have h2q : (2 : ℚ) ^ Nat.log2 x.den ≤ (x.den : ℚ) := by exact_mod_cast h2
    calc (x.num.natAbs : ℚ) * (2 : ℚ) ^ Nat.log2 x.den
        ≤ (x.num.natAbs : ℚ) * (x.den : ℚ) :=
          mul_le_mul_of_nonneg_left h2q (by positivity)
      _ < (2 : ℚ) ^ (Nat.log2 x.num.natAbs + 1) * (x.den : ℚ) :=
          mul_lt_mul_of_pos_right h1q hden
  · rename_i h
    rw [sub_add_cancel]
    exact not_le.mp h

theorem le_round_half_even (n : Int) (m : ℚ) (h : (n : ℚ) ≤ m) : n ≤ round_half_even m := by
  have h1 : n ≤ ⌊m⌋ := Int.le_floor.mpr h
  unfold round_half_even
  split_ifs <;> omega

theorem round_half_even_le (n : Int) (m : ℚ) (h : m ≤ (n : ℚ)) : round_half_even m ≤ n := by
  have h1 : ((⌊m⌋ : Int) : ℚ) ≤ m := Int.floor_le m
  have h2 : ⌊m⌋ ≤ n := by exact_mod_cast le_trans h1 h
  have h3 : m - (⌊m⌋ : ℚ) ≥ 1 / 2 → ⌊m⌋ + 1 ≤ n := by
    intro hf
    have hlt : ((⌊m⌋ : Int) : ℚ) < (n : ℚ) := by linarith
    have hlt2 : ⌊m⌋ < n := by exact_mod_cast hlt
    omega
  unfold round_half_even
  split_ifs with a b c
  · exact h2
  · exact h3 b.le
  · exact h2
  · exact h3 (not_lt.mp a)

/-- The result of `round_double` is an integer of 53 bits times a power of two: the
integer that is scaled lies between `2 ^ 52` and `2 ^ 53` in absolute value. -/
theorem round_double_significand (x : ℚ) (hx : x ≠ 0) :
    2 ^ 52 ≤ |round_half_even (x / pow2 (ilog2 x - 52))| ∧
    |round_half_even (x / pow2 (ilog2 x - 52))| ≤ 2 ^ 53 := by
  have hp := pow2_pos (ilog2 x - 52)
  have hlo := ilog2_le x hx
  have hhi := ilog2_lt x
  have e1 : pow2 (ilog2 x) = pow2 (ilog2 x - 52) * 2 ^ 52 := by
    rw [pow2_eq_zpow, pow2_eq_zpow, zpow_sub₀ (by norm_num : (2 : ℚ) ≠ 0)]
    norm_num
  have e2 : pow2 (ilog2 x + 1) = pow2 (ilog2 x - 52) * 2 ^ 53 := by
    rw [pow2_eq_zpow, pow2_eq_zpow, zpow_sub₀ (by norm_num : (2 : ℚ) ≠ 0),
      zpow_add₀ (by norm_num : (2 : ℚ) ≠ 0)]
    norm_num
    ring
  rw [e1] at hlo
  rw [e2] at hhi
  have habs : |x / pow2 (ilog2 x - 52)| = |x| / pow2 (ilog2 x - 52) := by
    rw [abs_div, abs_of_pos hp]
  have hylo : (2 : ℚ) ^ 52 ≤ |x / pow2 (ilog2 x - 52)| := by
    rw [habs, le_div_iff₀ hp]
    linarith
  have hyhi : |x / pow2 (ilog2 x - 52)| ≤ (2 : ℚ) ^ 53 := by
    rw [habs, div_le_iff₀ hp]
    linarith
  generalize x / pow2 (ilog2 x - 52) = y at hylo hyhi
  rcases le_or_lt 0 y with hy | hy
  · rw [abs_of_nonneg hy] at hylo hyhi
    have a1 := le_round_half_even (2 ^ 52) y (by exact_mod_cast hylo)
    have a2 := round_half_even_le (2 ^ 53) y (by exact_mod_cast hyhi)
    rw [abs_of_nonneg (by omega)]
    exact ⟨a1, a2⟩
  · rw [abs_of_neg hy] at hylo hyhi
    have a1 := le_round_half_even (-(2 ^ 53)) y (by push_cast; linarith)
    have a2 := round_half_even_le (-(2 ^ 52)) y (by push_cast; linarith)
    rw [abs_of_nonpos (by omega)]
    constructor <;> omega

/-- The rounding at known values: the decimal 0.1, the decimal 0.7, a number that is a
`double` already, the two ties next to `2 ^ 53` (to the even neighbour), a negative
number, and the sum 0.1 + 0.2 as the machine adds it. -/
theorem round_double_examples :
    round_double (1 / 10) = 3602879701896397 / 2 ^ 55 ∧
    round_double (7 / 10) = 3152519739159347 / 2 ^ 52 ∧
    round_double (3 / 8) = 3 / 8 ∧
    round_double (2 ^ 53 + 1) = 2 ^ 53 ∧
    round_double (2 ^ 53 + 3) = 2 ^ 53 + 4 ∧
    round_double (-(1 / 3)) = -(6004799503160661 / 2 ^ 54) ∧
    round_double (round_double (1 / 10) + round_double (2 / 10)) =
      5404319552844596 / 2 ^ 54 := by
  decide!

/-- The rounded sum of three positive ratios is positive and within two roundings of the
exact sum. -/
theorem ratio_total_bounds (a b c : ℚ) (ha : 0 < a) (hb : 0 < b) (hc : 0 < c) :
    0 < round_double (round_double (a + b) + c) ∧
    (1 - 1 / 2 ^ 53) ^ 2 * (a + b + c) ≤ round_double (round_double (a + b) + c) ∧
    round_double (round_double (a + b) + c) ≤ (1 + 1 / 2 ^ 53) ^ 2 * (a + b + c) := by
  obtain ⟨l1, u1⟩ := round_double_bounds (a + b) (by positivity)
  have hab : 0 < round_double (a + b) := round_double_pos (a + b) (by positivity)
  obtain ⟨l2, u2⟩ := round_double_bounds (round_double (a + b) + c) (by positivity)
  refine ⟨round_double_pos _ (by positivity), ?_, ?_⟩
  · norm_num at l1 l2 ⊢
    linarith
  · norm_num at u1 u2 ⊢
    linarith

/-- The three ratios that `normalize_ratios` stores for positive inputs are positive and
their exact sum is within `(1 - u) / (1 + u) ^ 2` and `(1 + u) / (1 - u) ^ 2` of 1, where
`u = 2 ^ -53`. -/
theorem normalized_sum_bounds (a b c : ℚ) (ha : 0 < a) (hb : 0 < b) (hc : 0 < c) :
    0 < round_double (a / round_double (round_double (a + b) + c)) ∧
    0 < round_double (b / round_double (round_double (a + b) + c)) ∧
    0 < round_double (c / round_double (round_double (a + b) + c)) ∧
    (1 - 1 / 2 ^ 53) / (1 + 1 / 2 ^ 53) ^ 2 ≤
      round_double (a / round_double (round_double (a + b) + c)) +
        round_double (b / round_double (round_double (a + b) + c)) +
        round_double (c / round_double (round_double (a + b) + c)) ∧
    round_double (a / round_double (round_double (a + b) + c)) +
        round_double (b / round_double (round_double (a + b) + c)) +
        round_double (c / round_double (round_double (a + b) + c)) ≤
      (1 + 1 / 2 ^ 53) / (1 - 1 / 2 ^ 53) ^ 2 := by
  obtain ⟨hT, hlo, hhi⟩ := ratio_total_bounds a b c ha hb hc
  generalize round_double (round_double (a + b) + c) = T at hT hlo hhi ⊢
  obtain ⟨la, ua⟩ := round_double_bounds (a / T) (by positivity)
  obtain ⟨lb, ub⟩ := round_double_bounds (b / T) (by positivity)
  obtain ⟨lc, uc⟩ := round_double_bounds (c / T) (by positivity)
  have hQ : a / T + b / T + c / T = (a + b + c) / T := by ring
  have hQlo : 1 / (1 + 1 / 2 ^ 53) ^ 2 ≤ (a + b + c) / T := by
    rw [div_le_div_iff₀ (by positivity) hT]
    linarith
  have hQhi : (a + b + c) / T ≤ 1 / (1 - 1 / 2 ^ 53) ^ 2 := by
    rw [div_le_div_iff₀ hT (by norm_num)]
    linarith
  refine ⟨round_double_pos _ (by positivity), round_double_pos _ (by positivity),
    round_double_pos _ (by positivity), ?_, ?_⟩
  · have h1 : (1 - 1 / 2 ^ 53) * ((a + b + c) / T) ≤
        round_double (a / T) + round_double (b / T) + round_double (c / T) := by
      rw [← hQ]
      linarith
    have h2 : (1 - 1 / 2 ^ 53 : ℚ) / (1 + 1 / 2 ^ 53) ^ 2 ≤
        (1 - 1 / 2 ^ 53) * ((a + b + c) / T) := by
      rw [div_eq_mul_one_div]
      exact mul_le_mul_of_nonneg_left hQlo (by norm_num)
    linarith
  · have h1 : round_double (a / T) + round_double (b / T) + round_double (c / T) ≤
        (1 + 1 / 2 ^ 53) * ((a + b + c) / T) := by
      rw [← hQ]
      linarith
    have h2 : (1 + 1 / 2 ^ 53) * ((a + b + c) / T) ≤
        (1 + 1 / 2 ^ 53 : ℚ) / (1 - 1 / 2 ^ 53) ^ 2 := by
      rw [div_eq_mul_one_div ((1 : ℚ) + 1 / 2 ^ 53)]
      exact mul_le_mul_of_nonneg_left hQhi (by norm_num)
    linarith

/-! ## The capacity planner: ratios and budgets -/

theorem same_params_refl (s : cache_t) : same_params s s :=
  ⟨rfl, rfl, rfl, rfl, rfl, rfl, rfl, rfl, rfl, rfl, rfl, rfl, rfl⟩

theorem same_params_trans (s s1 s2 : cache_t) (h1 : same_params s s1)
    (h2 : same_params s1 s2) : same_params s s2 := by
  obtain ⟨a1, a2, a3, a4, a5, a6, a7, a8, a9, a10, a11, a12, a13⟩ := h1
  obtain ⟨b1, b2, b3, b4, b5, b6, b7, b8, b9, b10, b11, b12, b13⟩ := h2
  exact ⟨b1.trans a1, b2.trans a2, b3.trans a3, b4.trans a4, b5.trans a5, b6.trans a6,
    b7.trans a7, b8.trans a8, b9.trans a9, b10.trans a10, b11.trans a11, b12.trans a12,
    b13.trans a13⟩

theorem ghost_get_same_params (s : cache_t) (c : cache_obj_t) :
    same_params s (ghost_get s c) := by
  unfold ghost_get
  split <;> exact same_params_refl s

theorem S3FIFO_evict_fifo_same_params (log : Nat → ℚ) (s : cache_t) :
    same_params s (S3FIFO_evict_fifo log s) := by
  by_cases hocc : FIFO_get_occupied_byte s.fifo > 0
  · cases hc : FIFO_to_evict s.fifo with
    | none =>
      have : S3FIFO_evict_fifo log s = s := by simp [S3FIFO_evict_fifo, hocc, hc]
      rw [this]
      exact same_params_refl s
    | some c =>
      by_cases hscore : compute_weighted_score log c s ≥ SOME_SCORE_THRESHOLD
      · rw [S3FIFO_evict_fifo_high log s c hc hocc hscore, FIFO_remove_fst]
        exact same_params_refl s
      · rw [S3FIFO_evict_fifo_low log s c hc hocc (not_le.mp hscore), FIFO_remove_fst]
        exact same_params_trans _ _ _ (ghost_get_same_params s c)
          ⟨rfl, rfl, rfl, rfl, rfl, rfl, rfl, rfl, rfl, rfl,
            (congrArg FIFO_cache.cache_size (ghost_get_frame s c).2.1).symm, rfl, rfl⟩
  · have : S3FIFO_evict_fifo log s = s := by simp [S3FIFO_evict_fifo, hocc]
    rw [this]
    exact same_params_refl s

theorem S3FIFO_evict_main_same_params (log : Nat → ℚ) (s : cache_t) :
    same_params s (S3FIFO_evict_main log s) := by
  by_cases hocc : FIFO_get_occupied_byte s.main_cache > s.main_cache.cache_size
  · cases hc : FIFO_to_evict s.main_cache with
    | none =>
      have : S3FIFO_evict_main log s = s := by simp [S3FIFO_evict_main, hocc, hc]
      rw [this]
      exact same_params_refl s
    | some c =>
      by_cases hscore : compute_weighted_score log c s ≥ SOME_SCORE_THRESHOLD
      · rw [S3FIFO_evict_main_high log s c hc hocc hscore]
        exact same_params_refl s
      · rw [S3FIFO_evict_main_low log s c hc hocc (not_le.mp hscore), FIFO_remove_fst]
        exact same_params_trans _ _ _ (ghost_get_same_params s c)
          ⟨rfl, rfl, rfl, rfl, rfl, rfl, rfl, rfl, rfl, rfl, rfl,
            (congrArg FIFO_cache.cache_size (ghost_get_frame s c).2.2.1).symm, rfl⟩
  · have : S3FIFO_evict_main log s = s := by simp [S3FIFO_evict_main, hocc]
    rw [this]
    exact same_params_refl s

theorem S3FIFO_evict_lq_same_params (log : Nat → ℚ) (s : cache_t) :
    same_params s (S3FIFO_evict_lq log s) := by
  by_cases hocc : FIFO_get_occupied_byte s.large_cache > s.large_cache.cache_size
  · cases hc : FIFO_to_evict s.large_cache with
    | none =>
      have : S3FIFO_evict_lq log s = s := by simp [S3FIFO_evict_lq, hocc, hc]
      rw [this]
      exact same_params_refl s
    | some c =>
      by_cases hscore : compute_weighted_score log c s ≥ SOME_SCORE_THRESHOLD
      · rw [S3FIFO_evict_lq_high log s c hc hocc hscore, FIFO_remove_fst]
        exact same_params_refl s
      · rw [S3FIFO_evict_lq_low log s c hc hocc (not_le.mp hscore), FIFO_remove_fst]
        exact same_params_trans _ _ _ (ghost_get_same_params s c)
          ⟨rfl, rfl, rfl, rfl, rfl, rfl, rfl, rfl, rfl, rfl, rfl, rfl,
            (congrArg FIFO_cache.cache_size (ghost_get_frame s c).2.2.2).symm⟩
  · have : S3FIFO_evict_lq log s = s := by simp [S3FIFO_evict_lq, hocc]
    rw [this]
    exact same_params_refl s

theorem DCP_evictions_same_params (log : Nat → ℚ) (s3 : cache_t) :
    same_params s3 (DCP_evictions log s3) := by
  unfold DCP_evictions
  have h4 : same_params s3
      (if FIFO_get_occupied_byte s3.fifo > s3.fifo.cache_size then S3FIFO_evict_fifo log s3
       else s3) := by
    split
    · exact S3FIFO_evict_fifo_same_params log s3
    · exact same_params_refl s3
  simp only
  generalize (if FIFO_get_occupied_byte s3.fifo > s3.fifo.cache_size then
    S3FIFO_evict_fifo log s3 else s3) = s4 at h4 ⊢
  have h5 : same_params s3
      (if FIFO_get_occupied_byte s4.main_cache > s3.main_cache.cache_size then
        S3FIFO_evict_main log s4 else s4) := by
    split
    · exact same_params_trans _ _ _ h4 (S3FIFO_evict_main_same_params log s4)
    · exact h4
  generalize (if FIFO_get_occupied_byte s4.main_cache > s3.main_cache.cache_size then
    S3FIFO_evict_main log s4 else s4) = s5 at h5 ⊢
  split
  · exact same_params_trans _ _ _ h5 (S3FIFO_evict_lq_same_params log s5)
  · exact h5

/-- The ratios that the first half of the planner pass installs. The two constant signals
are below their thresholds, so no adjustment is made and each ratio is divided by the
rounded sum of the three, the quotient rounded again. -/
theorem DCP_budgets_ratios (s : cache_t) :
    (DCP_budgets s).s_ratio =
      round_double (s.s_ratio / round_double (round_double (s.s_ratio + s.m_ratio) + s.lq_ratio)) ∧
    (DCP_budgets s).m_ratio =
      round_double (s.m_ratio / round_double (round_double (s.s_ratio + s.m_ratio) + s.lq_ratio)) ∧
    (DCP_budgets s).lq_ratio =
      round_double
        (s.lq_ratio / round_double (round_double (s.s_ratio + s.m_ratio) + s.lq_ratio)) := by
  have h1 : ¬ get_recent_large_requests > LARGE_REQUEST_THRESHOLD := by
    unfold get_recent_large_requests LARGE_REQUEST_THRESHOLD
    norm_num
  have h2 : ¬ get_recent_small_requests > SMALL_REQUEST_THRESHOLD := by
    unfold get_recent_small_requests SMALL_REQUEST_THRESHOLD
    norm_num
  simp only [DCP_budgets, normalize_ratios, resize_cache, h1, h2, if_false]
  exact ⟨trivial, trivial, trivial⟩

/-- C11, refuted in the arithmetic of the code: capacity 1000 and the ratios 0.05, 0.70,
0.05, all positive. The pass stores the ratios 0.0625, 0.8749999999999999 (one unit in the
last place below 7/8) and 0.0625; their exact sum is `1 - 2 ^ -53`, and the sum as the
machine adds them is the same number, 0.9999999999999999, not 1. -/
theorem C11_ratio_sum_is_not_one :
    (0 < (S3FIFO_init_ratios 1000 (5 / 100) (70 / 100) (5 / 100)).s_ratio ∧
      0 < (S3FIFO_init_ratios 1000 (5 / 100) (70 / 100) (5 / 100)).m_ratio ∧
      0 < (S3FIFO_init_ratios 1000 (5 / 100) (70 / 100) (5 / 100)).lq_ratio) ∧
    ((DCP_check_and_adjust log_floor
        (S3FIFO_init_ratios 1000 (5 / 100) (70 / 100) (5 / 100))).s_ratio,
      (DCP_check_and_adjust log_floor
        (S3FIFO_init_ratios 1000 (5 / 100) (70 / 100) (5 / 100))).m_ratio,
      (DCP_check_and_adjust log_floor
        (S3FIFO_init_ratios 1000 (5 / 100) (70 / 100) (5 / 100))).lq_ratio) =
      (1 / 16, 7 / 8 - 1 / 2 ^ 53, 1 / 16) ∧
    (DCP_check_and_adjust log_floor
        (S3FIFO_init_ratios 1000 (5 / 100) (70 / 100) (5 / 100))).s_ratio +
      (DCP_check_and_adjust log_floor
        (S3FIFO_init_ratios 1000 (5 / 100) (70 / 100) (5 / 100))).m_ratio +
      (DCP_check_and_adjust log_floor
        (S3FIFO_init_ratios 1000 (5 / 100) (70 / 100) (5 / 100))).lq_ratio ≠ 1 ∧
    round_double (round_double
        ((DCP_check_and_adjust log_floor
            (S3FIFO_init_ratios 1000 (5 / 100) (70 / 100) (5 / 100))).s_ratio +
          (DCP_check_and_adjust log_floor
            (S3FIFO_init_ratios 1000 (5 / 100) (70 / 100) (5 / 100))).m_ratio) +
        (DCP_check_and_adjust log_floor
          (S3FIFO_init_ratios 1000 (5 / 100) (70 / 100) (5 / 100))).lq_ratio) =
      1 - 1 / 2 ^ 53 := by
  decide!

/-- C11 as amended: for ratios that are positive and of ordinary magnitude, after one
planner pass the three ratios are positive, their exact sum differs from 1 by at most
`2 ^ -51`, and the sum as the machine adds them differs from 1 by at most `2 ^ -50`. -/
theorem C11_ratio_sum_within_tolerance (log : Nat → ℚ) (s : cache_t)
    (hs : in_double_range s.s_ratio) (hm : in_double_range s.m_ratio)
    (hl : in_double_range s.lq_ratio) :
    (0 < (DCP_check_and_adjust log s).s_ratio ∧ 0 < (DCP_check_and_adjust log s).m_ratio ∧
      0 < (DCP_check_and_adjust log s).lq_ratio) ∧
    |(DCP_check_and_adjust log s).s_ratio + (DCP_check_and_adjust log s).m_ratio +
        (DCP_check_and_adjust log s).lq_ratio - 1| ≤ 1 / 2 ^ 51 ∧
    |round_double (round_double
        ((DCP_check_and_adjust log s).s_ratio + (DCP_check_and_adjust log s).m_ratio) +
        (DCP_check_and_adjust log s).lq_ratio) - 1| ≤ 1 / 2 ^ 50 := by
  rw [DCP_check_and_adjust_eq]
  obtain ⟨-, e1, e2, e3, -⟩ := DCP_evictions_same_params log (DCP_budgets s)
  obtain ⟨r1, r2, r3⟩ := DCP_budgets_ratios s
  rw [e1, e2, e3, r1, r2, r3]
  have ha : 0 < s.s_ratio := lt_of_lt_of_le (by norm_num) hs.1
  have hb : 0 < s.m_ratio := lt_of_lt_of_le (by norm_num) hm.1
  have hc : 0 < s.lq_ratio := lt_of_lt_of_le (by norm_num) hl.1
  obtain ⟨p1, p2, p3, hlo, hhi⟩ := normalized_sum_bounds s.s_ratio s.m_ratio s.lq_ratio ha hb hc
  obtain ⟨-, dlo, dhi⟩ := ratio_total_bounds _ _ _ p1 p2 p3
  refine ⟨⟨p1, p2, p3⟩, ?_, ?_⟩
  · rw [abs_le]
    norm_num at hlo hhi ⊢
    constructor <;> linarith
  · rw [abs_le]
    norm_num at hlo hhi dlo dhi ⊢
    constructor <;> linarith

/-- C11 as amended, at a concrete input on which the pass changes the ratios: capacity
1000 and the ratios 0.05, 0.70, 0.05, which the pass replaces by 0.0625,
0.8749999999999999 and 0.0625. -/
theorem C11_ratio_sum_within_tolerance_witness :
    (in_double_range (S3FIFO_init_ratios 1000 (5 / 100) (70 / 100) (5 / 100)).s_ratio ∧
      in_double_range (S3FIFO_init_ratios 1000 (5 / 100) (70 / 100) (5 / 100)).m_ratio ∧
      in_double_range (S3FIFO_init_ratios 1000 (5 / 100) (70 / 100) (5 / 100)).lq_ratio) ∧
    (DCP_check_and_adjust log_floor
        (S3FIFO_init_ratios 1000 (5 / 100) (70 / 100) (5 / 100))).s_ratio ≠
      (S3FIFO_init_ratios 1000 (5 / 100) (70 / 100) (5 / 100)).s_ratio ∧
    |(DCP_check_and_adjust log_floor
          (S3FIFO_init_ratios 1000 (5 / 100) (70 / 100) (5 / 100))).s_ratio +
        (DCP_check_and_adjust log_floor
          (S3FIFO_init_ratios 1000 (5 / 100) (70 / 100) (5 / 100))).m_ratio +
        (DCP_check_and_adjust log_floor
          (S3FIFO_init_ratios 1000 (5 / 100) (70 / 100) (5 / 100))).lq_ratio - 1| ≤
      1 / 2 ^ 51 :=
  ⟨⟨by decide!, by decide!, by decide!⟩, by decide!,
   (C11_ratio_sum_within_tolerance log_floor
      (S3FIFO_init_ratios 1000 (5 / 100) (70 / 100) (5 / 100))
      (by decide!) (by decide!) (by decide!)).2.1⟩

/-! ## The planner pass on over-budget tiers -/

/-- C12, evaluated at the failing input: capacity 1000, default parameters, threshold 100.
After the requests for object 1 (size 10), object 2 (size 90) and object 3 (size 100),
Small holds 200 bytes. The planner pass that follows installs the budget 100 for Small,
evicts the single oldest object (10 bytes) and returns with Small at 190 bytes. -/
theorem C12_planner_leaves_tier_over_budget :
    (run_requests log_floor 0 (S3FIFO_init_default 1000 100)
        [⟨1, 10, 0⟩, ⟨2, 90, 0⟩, ⟨3, 100, 0⟩]).map
      (fun s =>
        (FIFO_get_occupied_byte s.fifo,
         FIFO_get_occupied_byte (DCP_check_and_adjust log_floor s).fifo,
         (DCP_check_and_adjust log_floor s).fifo.cache_size,
         decide (FIFO_get_occupied_byte (DCP_check_and_adjust log_floor s).fifo ≤
           (DCP_check_and_adjust log_floor s).fifo.cache_size))) =
      some (200, 190, 100, false) := by
  decide!

/-- C13, evaluated at the failing input: on the state reached by the requests for object 1
(size 10), object 2 (size 90) and object 3 (size 100), one planner pass leaves the objects
3 and 2 in Small and the id 1 in Ghost, a second pass leaves object 3 only in Small and
the ids 2 and 1 in Ghost: two passes do not give the state of one pass. -/
theorem C13_planner_pass_not_idempotent :
    (run_requests log_floor 0 (S3FIFO_init_default 1000 100)
        [⟨1, 10, 0⟩, ⟨2, 90, 0⟩, ⟨3, 100, 0⟩]).map
      (fun s =>
        (FIFO_ids (DCP_check_and_adjust log_floor s).fifo,
         (DCP_check_and_adjust log_floor s).fifo_ghost.map FIFO_ids,
         FIFO_ids (DCP_check_and_adjust log_floor (DCP_check_and_adjust log_floor s)).fifo,
         (DCP_check_and_adjust log_floor
            (DCP_check_and_adjust log_floor s)).fifo_ghost.map FIFO_ids,
         decide (DCP_check_and_adjust log_floor (DCP_check_and_adjust log_floor s) =
           DCP_check_and_adjust log_floor s))) =
      some ([3, 2], some [1], [3], some [2, 1], false) := by
  decide!

/-- The budgets that the first half of the planner pass installs are the truncated products
of the capacity and the ratios it installs. -/
theorem DCP_budgets_sizes (s : cache_t) :
    (DCP_budgets s).fifo.cache_size =
      tier_budget (DCP_budgets s).cache_size (DCP_budgets s).s_ratio ∧
    (DCP_budgets s).main_cache.cache_size =
      tier_budget (DCP_budgets s).cache_size (DCP_budgets s).m_ratio ∧
    (DCP_budgets s).large_cache.cache_size =
      tier_budget (DCP_budgets s).cache_size (DCP_budgets s).lq_ratio := by
  unfold DCP_budgets
  simp only [normalize_ratios, resize_cache]
  exact ⟨trivial, trivial, trivial⟩

/-- The budgets of a second pass can differ from those of the first even when every tier is
empty: with capacity 1000 and the ratios 0.05, 0.70, 0.05 the first pass stores the Main
ratio 0.8749999999999999 and the Main budget 874, the second pass 0.875 and 875. -/
theorem DCP_check_and_adjust_budget_drift :
    ((DCP_check_and_adjust log_floor
        (S3FIFO_init_ratios 1000 (5 / 100) (70 / 100) (5 / 100))).m_ratio,
      (DCP_check_and_adjust log_floor
        (S3FIFO_init_ratios 1000 (5 / 100) (70 / 100) (5 / 100))).main_cache.cache_size,
      (DCP_check_and_adjust log_floor (DCP_check_and_adjust log_floor
        (S3FIFO_init_ratios 1000 (5 / 100) (70 / 100) (5 / 100)))).m_ratio,
      (DCP_check_and_adjust log_floor (DCP_check_and_adjust log_floor
        (S3FIFO_init_ratios 1000 (5 / 100) (70 / 100) (5 / 100)))).main_cache.cache_size) =
      (7 / 8 - 1 / 2 ^ 53, 874, 7 / 8, 875) := by
  decide!

/-! ## User-triggered removal -/

theorem FIFO_remove_of_not_mem (t : FIFO_cache) (id : Nat) (h : id ∉ FIFO_ids t) :
    FIFO_remove t id = (t, false) := by
  unfold FIFO_remove
  rw [(FIFO_find_eq_none t id).mpr h]

/-- Removal of an id that is in none of Small, Ghost and Main answers false and returns the
state it was given, whatever Large holds: Large is never probed. -/
theorem S3FIFO_remove_of_absent (s : cache_t) (id : Nat)
    (hS : id ∉ FIFO_ids s.fifo) (hM : id ∉ FIFO_ids s.main_cache)
    (hG : ∀ g, s.fifo_ghost = some g → id ∉ FIFO_ids g) :
    S3FIFO_remove s id = (s, false) := by
  unfold S3FIFO_remove
  rw [FIFO_remove_of_not_mem s.fifo id hS, FIFO_remove_of_not_mem s.main_cache id hM]
  cases hg : s.fifo_ghost with
  | none => simp
  | some g =>
    simp only
    rw [FIFO_remove_of_not_mem g id (hG g hg)]
    simp

/-- C14, evaluated at the failing input: capacity 1000, default parameters, threshold 100.
The request for object 1 of size 150 admits it into Large; `S3FIFO_remove` of id 1 then
answers false and object 1 is still resident in Large. -/
theorem C14_remove_misses_large :
    (run_requests log_floor 0 (S3FIFO_init_default 1000 100) [⟨1, 150, 0⟩]).map
      (fun s => (FIFO_ids s.fifo, FIFO_ids s.main_cache, FIFO_ids s.large_cache,
        (S3FIFO_remove s 1).2, FIFO_ids (S3FIFO_remove s 1).1.large_cache)) =
      some ([], [], [1], false, [1]) := by
  decide!

/-- C15: removal of an id that is in none of Small, Main, Large and Ghost answers false and
returns the state it was given. -/
theorem C15_remove_absent_id (s : cache_t) (id : Nat)
    (hS : id ∉ FIFO_ids s.fifo) (hM : id ∉ FIFO_ids s.main_cache)
    (_hL : id ∉ FIFO_ids s.large_cache)
    (hG : ∀ g, s.fifo_ghost = some g → id ∉ FIFO_ids g) :
    (S3FIFO_remove s id).2 = false ∧ (S3FIFO_remove s id).1 = s := by
  rw [S3FIFO_remove_of_absent s id hS hM hG]
  exact ⟨rfl, rfl⟩

/-- C15 at a concrete input: Small holds the objects 3, 2, 1, Ghost is empty, the id 9 is
nowhere. -/
theorem C15_remove_absent_id_witness :
    (9 ∉ FIFO_ids (state_small_oldest ⟨1, 50, 0, 0⟩).fifo ∧
      9 ∉ FIFO_ids (state_small_oldest ⟨1, 50, 0, 0⟩).main_cache ∧
      9 ∉ FIFO_ids (state_small_oldest ⟨1, 50, 0, 0⟩).large_cache ∧
      (state_small_oldest ⟨1, 50, 0, 0⟩).fifo_ghost = some ⟨900, []⟩) ∧
    (S3FIFO_remove (state_small_oldest ⟨1, 50, 0, 0⟩) 9).2 = false ∧
    (S3FIFO_remove (state_small_oldest ⟨1, 50, 0, 0⟩) 9).1 = state_small_oldest ⟨1, 50, 0, 0⟩ :=
  ⟨⟨by decide!, by decide!, by decide!, by decide!⟩,
   C15_remove_absent_id (state_small_oldest ⟨1, 50, 0, 0⟩) 9 (by decide!) (by decide!)
     (by decide!)
     (fun g hg => by
        have h : (state_small_oldest ⟨1, 50, 0, 0⟩).fifo_ghost = some ⟨900, []⟩ := by decide!
        rw [h] at hg
        cases hg
        decide)⟩

/-! ## Zero-size requests -/

/-- C16, refuted: capacity 1000, default parameters, threshold 100. The admission test
accepts a request of size 0 on the empty cache; the request admits the object into Small;
and after three more requests of size 50 the zero-size object is the eviction candidate of
a Small tier that is over its budget, so the next eviction scores it. -/
theorem C16_zero_size_is_not_rejected :
    S3FIFO_can_insert (S3FIFO_init_default 1000 100) ⟨1, 0, 0⟩ = true ∧
    (run_requests log_floor 0 (S3FIFO_init_default 1000 100) [⟨1, 0, 0⟩]).map
      (fun s => s.fifo.q) = some [⟨1, 0, 0, 0⟩] ∧
    (run_requests log_floor 0 (S3FIFO_init_default 1000 100)
        [⟨1, 0, 0⟩, ⟨2, 50, 0⟩, ⟨3, 50, 0⟩, ⟨4, 50, 0⟩]).map
      (fun s => (FIFO_to_evict s.fifo, FIFO_get_occupied_byte s.fifo, s.fifo.cache_size)) =
      some (some ⟨1, 0, 0, 0⟩, 150, 100) := by
  refine ⟨?_, ?_, ?_⟩ <;> decide!

/-- C16 as amended: a request of size 0 passes the admission test exactly when the budget
of Small is not negative, whatever the size threshold, and admission inserts the zero-size
object like any other: at the young end of Small, or of Main after a ghost hit. -/
theorem C16_zero_size_admission (s : cache_t) (req : request_t) (h0 : req.obj_size = 0) :
    S3FIFO_can_insert s req = decide ((0 : Int) ≤ s.fifo.cache_size) ∧
    (s.hit_on_ghost = false →
      (S3FIFO_insert s req).1.fifo.q = admitted_obj req :: s.fifo.q) ∧
    (s.hit_on_ghost = true →
      (S3FIFO_insert s req).1.main_cache.q = admitted_obj req :: s.main_cache.q) ∧
    (admitted_obj req).obj_size = 0 := by
  refine ⟨?_, ?_, ?_, ?_⟩
  · simp [S3FIFO_can_insert, h0]
  · intro hf
    simp [S3FIFO_insert, hf, h0, FIFO_insert, update_head, admitted_obj]
  · intro hf
    simp [S3FIFO_insert, hf, FIFO_insert, update_head, admitted_obj]
  · simp [admitted_obj, h0]

/-- C16 as amended, at a concrete input: the request (id 1, size 0) on the empty default
cache of capacity 1000. -/
theorem C16_zero_size_admission_witness :
    (⟨1, 0, 0⟩ : request_t).obj_size = 0 ∧
    S3FIFO_can_insert (S3FIFO_init_default 1000 100) ⟨1, 0, 0⟩ =
      decide ((0 : Int) ≤ (S3FIFO_init_default 1000 100).fifo.cache_size) ∧
    (S3FIFO_insert (S3FIFO_init_default 1000 100) ⟨1, 0, 0⟩).1.fifo.q =
      admitted_obj ⟨1, 0, 0⟩ :: (S3FIFO_init_default 1000 100).fifo.q :=
  ⟨rfl, (C16_zero_size_admission (S3FIFO_init_default 1000 100) ⟨1, 0, 0⟩ rfl).1,
   (C16_zero_size_admission (S3FIFO_init_default 1000 100) ⟨1, 0, 0⟩ rfl).2.1 rfl⟩

/-! ## The eviction loop of the request path -/

/-- When no tier is over its own budget, `S3FIFO_evict` returns the state it was given. -/
theorem S3FIFO_evict_noop (log : Nat → ℚ) (s : cache_t)
    (hS : FIFO_get_occupied_byte s.fifo ≤ s.fifo.cache_size)
    (hM : FIFO_get_occupied_byte s.main_cache ≤ s.main_cache.cache_size)
    (hL : FIFO_get_occupied_byte s.large_cache ≤ s.large_cache.cache_size) :
    S3FIFO_evict log s = s := by
  simp [S3FIFO_evict, not_lt.mpr hS, not_lt.mpr hM, not_lt.mpr hL]

/-- When no tier is over its own budget and the request does not fit in the total capacity,
the eviction loop of the request path never ends: it runs out of every amount of fuel. -/
theorem evict_loop_stuck (log : Nat → ℚ) (s : cache_t) (req : request_t)
    (hS : FIFO_get_occupied_byte s.fifo ≤ s.fifo.cache_size)
    (hM : FIFO_get_occupied_byte s.main_cache ≤ s.main_cache.cache_size)
    (hL : FIFO_get_occupied_byte s.large_cache ≤ s.large_cache.cache_size)
    (hover : S3FIFO_get_occupied_byte s + (req.obj_size : Int) > s.cache_size) :
    ∀ fuel : Nat, evict_loop log fuel s req = none := by
  intro fuel
  induction fuel with
  | zero => simp [evict_loop, hover]
  | succ n ih =>
    unfold evict_loop
    rw [if_pos hover, S3FIFO_evict_noop log s hS hM hL]
    exact ih

/-- C17, evaluated at the failing input: capacity 100, default parameters (budgets 10, 70
and 20), threshold 10. The ten requests below complete without any call of the eviction
loop and leave Small at 10, Main at 70 and Large at 20 bytes. The request for object 13
(size 10) then misses and passes the admission test, but its eviction loop does not end
for any amount of fuel: the total is over the capacity while no tier is over its budget,
so `S3FIFO_evict` evicts nothing. -/
theorem C17_eviction_loop_never_ends :
    ∃ s, run_requests log_floor 0 (S3FIFO_init_default 100 10)
        [⟨1, 20, 0⟩, ⟨2, 20, 0⟩, ⟨1, 20, 0⟩, ⟨3, 20, 0⟩, ⟨2, 20, 0⟩, ⟨4, 20, 0⟩, ⟨3, 20, 0⟩,
          ⟨11, 10, 0⟩, ⟨12, 10, 0⟩, ⟨11, 10, 0⟩] = some s ∧
      (FIFO_get_occupied_byte s.fifo, FIFO_get_occupied_byte s.main_cache,
        FIFO_get_occupied_byte s.large_cache) = (10, 70, 20) ∧
      S3FIFO_can_insert (S3FIFO_find (DCP_check_and_adjust log_floor s) ⟨13, 10, 0⟩ true).1
        ⟨13, 10, 0⟩ = true ∧
      ∀ fuel : Nat, S3FIFO_get log_floor fuel s ⟨13, 10, 0⟩ = none := by
  have h : (run_requests log_floor 0 (S3FIFO_init_default 100 10)
        [⟨1, 20, 0⟩, ⟨2, 20, 0⟩, ⟨1, 20, 0⟩, ⟨3, 20, 0⟩, ⟨2, 20, 0⟩, ⟨4, 20, 0⟩, ⟨3, 20, 0⟩,
          ⟨11, 10, 0⟩, ⟨12, 10, 0⟩, ⟨11, 10, 0⟩]).map
      (fun s =>
        decide ((FIFO_get_occupied_byte s.fifo, FIFO_get_occupied_byte s.main_cache,
            FIFO_get_occupied_byte s.large_cache) = (10, 70, 20)) &&
         decide ((S3FIFO_find (DCP_check_and_adjust log_floor s) ⟨13, 10, 0⟩ true).2 = none) &&
         S3FIFO_can_insert (S3FIFO_find (DCP_check_and_adjust log_floor s)
            ⟨13, 10, 0⟩ true).1 ⟨13, 10, 0⟩ &&
         decide (FIFO_get_occupied_byte (S3FIFO_find (DCP_check_and_adjust log_floor s)
            ⟨13, 10, 0⟩ true).1.fifo ≤ (S3FIFO_find (DCP_check_and_adjust log_floor s)
            ⟨13, 10, 0⟩ true).1.fifo.cache_size) &&
         decide (FIFO_get_occupied_byte (S3FIFO_find (DCP_check_and_adjust log_floor s)
            ⟨13, 10, 0⟩ true).1.main_cache ≤ (S3FIFO_find (DCP_check_and_adjust log_floor s)
            ⟨13, 10, 0⟩ true).1.main_cache.cache_size) &&
         decide (FIFO_get_occupied_byte (S3FIFO_find (DCP_check_and_adjust log_floor s)
            ⟨13, 10, 0⟩ true).1.large_cache ≤ (S3FIFO_find (DCP_check_and_adjust log_floor s)
            ⟨13, 10, 0⟩ true).1.large_cache.cache_size) &&
         decide (S3FIFO_get_occupied_byte (S3FIFO_find (DCP_check_and_adjust log_floor s)
            ⟨13, 10, 0⟩ true).1 + ((10 : Nat) : Int) >
            (S3FIFO_find (DCP_check_and_adjust log_floor s) ⟨13, 10, 0⟩ true).1.cache_size)) =
      some true := by
    decide!
  cases hrun : run_requests log_floor 0 (S3FIFO_init_default 100 10)
        [⟨1, 20, 0⟩, ⟨2, 20, 0⟩, ⟨1, 20, 0⟩, ⟨3, 20, 0⟩, ⟨2, 20, 0⟩, ⟨4, 20, 0⟩, ⟨3, 20, 0⟩,
          ⟨11, 10, 0⟩, ⟨12, 10, 0⟩, ⟨11, 10, 0⟩] with
  | none =>
    rw [hrun] at h
    cases h
  | some s =>
    rw [hrun] at h
    simp only [Option.map_some', Option.some.injEq, Bool.and_eq_true, decide_eq_true_eq] at h
    obtain ⟨⟨⟨⟨⟨⟨h1, h2⟩, h3⟩, h4⟩, h5⟩, h6⟩, h7⟩ := h
    refine ⟨s, rfl, h1, h3, ?_⟩
    intro fuel
    unfold S3FIFO_get cache_get_base
    generalize S3FIFO_find (DCP_check_and_adjust log_floor s) ⟨13, 10, 0⟩ true = p at *
    obtain ⟨s1, o⟩ := p
    simp only at h2 h3 h4 h5 h6 h7
    subst h2
    simp only [h3, if_true]
    rw [evict_loop_stuck log_floor s1 ⟨13, 10, 0⟩ h4 h5 h6 h7 fuel]

/-! ## One eviction per call, and the decay of the counter in Main -/

theorem q_ne_nil_of_occupied_pos (t : FIFO_cache) (h : FIFO_get_occupied_byte t > 0) :
    t.q ≠ [] := by
  intro hq
  unfold FIFO_get_occupied_byte at h
  rw [hq] at h
  simp at h

theorem update_tail_eq (g : Int → Int) (l : List cache_obj_t) (c : cache_obj_t)
    (hc : l.getLast? = some c) :
    update_tail g l = l.dropLast ++ [{ c with freq := g c.freq }] := by
  induction l with
  | nil => simp at hc
  | cons a l ih =>
    cases l with
    | nil =>
      simp at hc
      subst hc
      simp [update_tail]
    | cons b l1 =>
      rw [List.getLast?_cons_cons] at hc
      simp only [update_tail, List.dropLast_cons₂, List.cons_append]
      rw [ih hc]

/-- C18, refuted on a reachable state: capacity 1000, default parameters, threshold 100.
The request for object 1 of size 0 admits it into Small; Small is then not empty, but it
holds no bytes, and the Small-overflow eviction returns the state unchanged. -/
theorem C18_nonempty_small_not_evicted :
    (run_requests log_floor 0 (S3FIFO_init_default 1000 100) [⟨1, 0, 0⟩]).map
      (fun s => (s.fifo.q, FIFO_get_occupied_byte s.fifo,
        decide (S3FIFO_evict_fifo log_floor s = s))) =
      some ([⟨1, 0, 0, 0⟩], 0, true) := by
  decide!

/-- C18 as amended: when Small holds at least one byte and holds each id once, one call of
the Small-overflow eviction takes exactly the oldest object out of Small and leaves the other
objects of Small in place and in order; when Small holds no bytes, in particular when it is
empty, the call changes nothing. -/
theorem C18_single_eviction_per_call (log : Nat → ℚ) (s : cache_t) :
    (FIFO_get_occupied_byte s.fifo > 0 → (FIFO_ids s.fifo).Nodup →
      ∃ c, FIFO_to_evict s.fifo = some c ∧
        s.fifo.q = (S3FIFO_evict_fifo log s).fifo.q ++ [c] ∧
        (S3FIFO_evict_fifo log s).fifo.q = s.fifo.q.dropLast) ∧
    (¬ FIFO_get_occupied_byte s.fifo > 0 → S3FIFO_evict_fifo log s = s) ∧
    (s.fifo.q = [] → S3FIFO_evict_fifo log s = s) := by
  have hnone : ¬ FIFO_get_occupied_byte s.fifo > 0 → S3FIFO_evict_fifo log s = s := by
    intro h
    simp [S3FIFO_evict_fifo, h]
  refine ⟨?_, hnone, ?_⟩
  · intro hocc hnd
    have hne := q_ne_nil_of_occupied_pos s.fifo hocc
    cases hc : FIFO_to_evict s.fifo with
    | none =>
      unfold FIFO_to_evict at hc
      rw [List.getLast?_eq_none_iff] at hc
      exact absurd hc hne
    | some c =>
      have hq : (S3FIFO_evict_fifo log s).fifo.q = s.fifo.q.dropLast := by
        by_cases hscore : compute_weighted_score log c s ≥ SOME_SCORE_THRESHOLD
        · rw [S3FIFO_evict_fifo_high log s c hc hocc hscore, FIFO_remove_fst]
          exact eraseP_last_of_nodup s.fifo.q c hnd hc
        · rw [S3FIFO_evict_fifo_low log s c hc hocc (not_le.mp hscore), FIFO_remove_fst]
          exact eraseP_last_of_nodup s.fifo.q c hnd hc
      refine ⟨c, rfl, ?_, hq⟩
      rw [hq]
      exact (List.dropLast_append_getLast? c (by simpa [FIFO_to_evict] using hc)).symm
  · intro hq
    apply hnone
    unfold FIFO_get_occupied_byte
    rw [hq]
    simp

/-- C18 as amended, at concrete inputs: Small holding the objects 3, 2 and (oldest) 1 of 50
bytes each loses object 1 only; the empty Small of the initial state is left alone. -/
theorem C18_single_eviction_per_call_witness :
    (FIFO_get_occupied_byte (state_small_oldest ⟨1, 50, 0, 0⟩).fifo > 0 ∧
      (FIFO_ids (state_small_oldest ⟨1, 50, 0, 0⟩).fifo).Nodup ∧
      ∃ c, FIFO_to_evict (state_small_oldest ⟨1, 50, 0, 0⟩).fifo = some c ∧
        (state_small_oldest ⟨1, 50, 0, 0⟩).fifo.q =
          (S3FIFO_evict_fifo log_floor (state_small_oldest ⟨1, 50, 0, 0⟩)).fifo.q ++ [c] ∧
        (S3FIFO_evict_fifo log_floor (state_small_oldest ⟨1, 50, 0, 0⟩)).fifo.q =
          (state_small_oldest ⟨1, 50, 0, 0⟩).fifo.q.dropLast) ∧
    ((S3FIFO_init_default 1000 100).fifo.q = [] ∧
      S3FIFO_evict_fifo log_floor (S3FIFO_init_default 1000 100) =
        S3FIFO_init_default 1000 100) :=
  ⟨⟨by decide!, by decide!,
      (C18_single_eviction_per_call log_floor (state_small_oldest ⟨1, 50, 0, 0⟩)).1
        (by decide!) (by decide!)⟩,
   ⟨rfl, (C18_single_eviction_per_call log_floor (S3FIFO_init_default 1000 100)).2.2 rfl⟩⟩

/-- The decay of `S3FIFO_evict_main`: when the oldest object of an over-budget Main has score
at least 5 and counter f, after the Main-overflow eviction Main holds the same objects in the
same order and its oldest object has counter min(f, 3) - 1. This equals
max(min(f, 3) - 1, 0) for every f from 1 on, and it is -1 for f = 0. -/
theorem S3FIFO_evict_main_decay (log : Nat → ℚ) (s : cache_t) (c : cache_obj_t)
    (hc : FIFO_to_evict s.main_cache = some c)
    (hocc : FIFO_get_occupied_byte s.main_cache > s.main_cache.cache_size)
    (hscore : compute_weighted_score log c s ≥ SOME_SCORE_THRESHOLD) :
    (S3FIFO_evict_main log s).main_cache.q =
      s.main_cache.q.dropLast ++ [{ c with freq := min c.freq 3 - 1 }] ∧
    FIFO_to_evict (S3FIFO_evict_main log s).main_cache =
      some { c with freq := min c.freq 3 - 1 } ∧
    (1 ≤ c.freq → min c.freq 3 - 1 = max (min c.freq 3 - 1) 0) ∧
    (c.freq = 0 → min c.freq 3 - 1 = -1) := by
  have hq : (S3FIFO_evict_main log s).main_cache.q =
      s.main_cache.q.dropLast ++ [{ c with freq := min c.freq 3 - 1 }] := by
    rw [S3FIFO_evict_main_high log s c hc hocc hscore]
    exact update_tail_eq _ _ c hc
  refine ⟨hq, ?_, ?_, ?_⟩
  · unfold FIFO_to_evict
    rw [hq]
    simp
  · intro h
    omega
  · intro h
    omega

/-- C19, evaluated at the failing input: capacity 1000, default parameters, threshold 100,
requests for the objects 1 to 10, each of size 100 and reload cost 5 (score 10 minus half
the logarithm of 100 at counter 0, above 5). After nine requests object 1 is the oldest of
Main with counter 0 and Main is at its budget of 700 bytes; the planner pass of the tenth
request promotes object 8 into Main and runs the Main-overflow eviction, which keeps
object 1 with counter -1, where max(min(0, 3) - 1, 0) is 0. -/
theorem C19_decay_goes_below_zero :
    (run_requests log_floor 0 (S3FIFO_init_default 1000 100)
        [⟨1, 100, 5⟩, ⟨2, 100, 5⟩, ⟨3, 100, 5⟩, ⟨4, 100, 5⟩, ⟨5, 100, 5⟩, ⟨6, 100, 5⟩,
          ⟨7, 100, 5⟩, ⟨8, 100, 5⟩, ⟨9, 100, 5⟩]).map
      (fun s => (FIFO_to_evict s.main_cache, FIFO_get_occupied_byte s.main_cache)) =
      some (some ⟨1, 100, 0, 5⟩, 700) ∧
    (run_requests log_floor 0 (S3FIFO_init_default 1000 100)
        [⟨1, 100, 5⟩, ⟨2, 100, 5⟩, ⟨3, 100, 5⟩, ⟨4, 100, 5⟩, ⟨5, 100, 5⟩, ⟨6, 100, 5⟩,
          ⟨7, 100, 5⟩, ⟨8, 100, 5⟩, ⟨9, 100, 5⟩, ⟨10, 100, 5⟩]).map
      (fun s => (FIFO_to_evict s.main_cache, FIFO_ids s.main_cache)) =
      some (some ⟨1, 100, -1, 5⟩, [8, 7, 6, 5, 4, 3, 2, 1]) ∧
    max (min (0 : Int) 3 - 1) 0 = 0 := by
  refine ⟨?_, ?_, ?_⟩ <;> decide!

/-! ## The retention scorer -/

/-- The object count is the number of residents of Small and Main; the residents of Large
are not counted. -/
theorem S3FIFO_get_n_obj_eq (s : cache_t) :
    S3FIFO_get_n_obj s = (s.fifo.q.length : Int) + (s.main_cache.q.length : Int) := rfl

theorem occupied_eq_zero_iff (t : FIFO_cache) (hpos : ∀ o ∈ t.q, 0 < o.obj_size) :
    FIFO_get_occupied_byte t = 0 ↔ t.q = [] := by
  constructor
  · intro h
    cases hq : t.q with
    | nil => rfl
    | cons a l =>
      have ha : 0 < a.obj_size := hpos a (by rw [hq]; exact List.mem_cons_self a l)
      have hl : 0 ≤ FIFO_get_occupied_byte ⟨t.cache_size, l⟩ := occupied_nonneg _
      unfold FIFO_get_occupied_byte at h hl
      rw [hq] at h
      simp only [List.map_cons, List.sum_cons] at h hl
      omega
  · intro h
    unfold FIFO_get_occupied_byte
    rw [h]
    rfl

/-- The object count agrees with the occupied bytes as long as Large is empty: when every
resident of Small and Main has a positive size, the count is 0 exactly when no byte is
occupied. -/
theorem S3FIFO_get_n_obj_zero_iff (s : cache_t) (hL : s.large_cache.q = [])
    (hS : ∀ o ∈ s.fifo.q, 0 < o.obj_size) (hM : ∀ o ∈ s.main_cache.q, 0 < o.obj_size) :
    S3FIFO_get_n_obj s = 0 ↔ S3FIFO_get_occupied_byte s = 0 := by
  have h1 := occupied_eq_zero_iff s.fifo hS
  have h2 := occupied_eq_zero_iff s.main_cache hM
  have n1 := occupied_nonneg s.fifo
  have n2 := occupied_nonneg s.main_cache
  have h3 : FIFO_get_occupied_byte s.large_cache = 0 := by
    unfold FIFO_get_occupied_byte
    rw [hL]
    rfl
  unfold S3FIFO_get_n_obj FIFO_get_n_obj S3FIFO_get_occupied_byte
  rw [h3]
  constructor
  · intro h
    have a1 : s.fifo.q = [] := List.length_eq_zero.mp (by omega)
    have a2 : s.main_cache.q = [] := List.length_eq_zero.mp (by omega)
    rw [h1.mpr a1, h2.mpr a2]
    rfl
  · intro h
    have a1 : s.fifo.q = [] := h1.mp (by omega)
    have a2 : s.main_cache.q = [] := h2.mp (by omega)
    rw [a1, a2]
    rfl

/-- C21, evaluated at the failing input: capacity 1000, default parameters, threshold 100.
The request for object 1 of size 150 admits it into Large. Afterwards Large holds one
object and the occupied bytes are 150, but the object count is 0, not 1. -/
theorem C21_object_count_misses_large :
    (run_requests log_floor 0 (S3FIFO_init_default 1000 100) [⟨1, 150, 0⟩]).map
      (fun s => (s.fifo.q.length, s.main_cache.q.length, s.large_cache.q.length,
        S3FIFO_get_occupied_byte s, S3FIFO_get_n_obj s)) =
      some (0, 0, 1, 150, 0) := by
  decide!

/-! ## The budgets installed by the planner -/

/-- Truncation toward zero of a non-negative rational does not exceed it. -/
theorem trunc_int64_le (x : ℚ) (hx : 0 ≤ x) : ((trunc_int64 x : Int) : ℚ) ≤ x := by
  unfold trunc_int64
  have hnum : 0 ≤ x.num := Rat.num_nonneg.mpr hx
  rw [Int.tdiv_eq_ediv hnum (Int.ofNat_nonneg _), ← Rat.floor_def]
  exact Int.floor_le x

/-- The product that sizes a tier is taken with the stored `double` and rounded before it
is truncated: capacity 90 with the default ratios gives the budgets 9, 62 and 18 (and 81
for Ghost), where the exact product `90 * (7 / 10)` would give 63 for Main. -/
theorem tier_budget_default_90 :
    ((S3FIFO_init_default 90 100).fifo.cache_size,
      (S3FIFO_init_default 90 100).main_cache.cache_size,
      (S3FIFO_init_default 90 100).large_cache.cache_size,
      (S3FIFO_init_default 90 100).fifo_ghost.map FIFO_cache.cache_size,
      (DCP_check_and_adjust log_floor (S3FIFO_init_default 90 100)).main_cache.cache_size,
      trunc_int64 (90 * (7 / 10))) = (9, 62, 18, some 81, 62, 63) := by
  decide!

/-- A tier budget does not exceed the exact product of the capacity and the ratio by more
than the two roundings that produce it. -/
theorem tier_budget_le (cache_size : Int) (ratio : ℚ) (hC : 0 ≤ cache_size) (hr : 0 ≤ ratio) :
    ((tier_budget cache_size ratio : Int) : ℚ) ≤
      (1 + 1 / 2 ^ 53) ^ 2 * ((cache_size : ℚ) * ratio) := by
  have hCq : (0 : ℚ) ≤ (cache_size : ℚ) := by exact_mod_cast hC
  obtain ⟨-, u1⟩ := round_double_bounds (cache_size : ℚ) hCq
  have h1 : 0 ≤ round_double (cache_size : ℚ) := round_double_nonneg _ hCq
  obtain ⟨-, u2⟩ := round_double_bounds (round_double (cache_size : ℚ) * ratio)
    (mul_nonneg h1 hr)
  have h2 : 0 ≤ round_double (round_double (cache_size : ℚ) * ratio) :=
    round_double_nonneg _ (mul_nonneg h1 hr)
  have h3 := trunc_int64_le _ h2
  have h4 : round_double (cache_size : ℚ) * ratio ≤
      (1 + 1 / 2 ^ 53) * (cache_size : ℚ) * ratio := mul_le_mul_of_nonneg_right u1 hr
  unfold tier_budget
  norm_num at u2 h4 ⊢
  linarith

/-- A tier budget is not negative. -/
theorem tier_budget_nonneg (cache_size : Int) (ratio : ℚ) (hC : 0 ≤ cache_size)
    (hr : 0 ≤ ratio) : 0 ≤ tier_budget cache_size ratio := by
  have hCq : (0 : ℚ) ≤ (cache_size : ℚ) := by exact_mod_cast hC
  have h2 : 0 ≤ round_double (round_double (cache_size : ℚ) * ratio) :=
    round_double_nonneg _ (mul_nonneg (round_double_nonneg _ hCq) hr)
  unfold tier_budget trunc_int64
  exact Int.tdiv_nonneg (Rat.num_nonneg.mpr h2) (Int.ofNat_nonneg _)

/-- C22, refuted in the arithmetic of the code: capacity 4066863893553749 and the ratios
0.15, 0.30, 0.05, all positive. The pass stores the ratios 0.30000000000000004,
0.6000000000000001 and 0.10000000000000002 and installs the budgets 1220059168066125,
2440118336132250 and 406686389355375, which sum to the capacity plus one. -/
theorem C22_budgets_exceed_capacity :
    ((0 : Int) ≤ (S3FIFO_init_ratios 4066863893553749 (15 / 100) (30 / 100) (5 / 100)).cache_size ∧
      (S3FIFO_init_ratios 4066863893553749 (15 / 100) (30 / 100) (5 / 100)).cache_size ≤ 2 ^ 62 ∧
      0 < (S3FIFO_init_ratios 4066863893553749 (15 / 100) (30 / 100) (5 / 100)).s_ratio ∧
      0 < (S3FIFO_init_ratios 4066863893553749 (15 / 100) (30 / 100) (5 / 100)).m_ratio ∧
      0 < (S3FIFO_init_ratios 4066863893553749 (15 / 100) (30 / 100) (5 / 100)).lq_ratio) ∧
    ((DCP_check_and_adjust log_floor
        (S3FIFO_init_ratios 4066863893553749 (15 / 100) (30 / 100) (5 / 100))).fifo.cache_size,
      (DCP_check_and_adjust log_floor
        (S3FIFO_init_ratios 4066863893553749 (15 / 100) (30 / 100)
          (5 / 100))).main_cache.cache_size,
      (DCP_check_and_adjust log_floor
        (S3FIFO_init_ratios 4066863893553749 (15 / 100) (30 / 100)
          (5 / 100))).large_cache.cache_size) =
      (1220059168066125, 2440118336132250, 406686389355375) ∧
    (DCP_check_and_adjust log_floor
        (S3FIFO_init_ratios 4066863893553749 (15 / 100) (30 / 100) (5 / 100))).fifo.cache_size +
      (DCP_check_and_adjust log_floor
        (S3FIFO_init_ratios 4066863893553749 (15 / 100) (30 / 100)
          (5 / 100))).main_cache.cache_size +
      (DCP_check_and_adjust log_floor
        (S3FIFO_init_ratios 4066863893553749 (15 / 100) (30 / 100)
          (5 / 100))).large_cache.cache_size =
      (S3FIFO_init_ratios 4066863893553749 (15 / 100) (30 / 100) (5 / 100)).cache_size + 1 := by
  decide!

/-- C22 as amended: for a total capacity between 0 and `2 ^ 62` and ratios that are
positive and of ordinary magnitude, the three budgets that a planner pass installs are the
truncated, rounded products of the capacity and the ratios it stores; together they are at
most the total capacity whenever that is at most `2 ^ 50`, and in every case they are at
most the total capacity times `1 + 2 ^ -50`, none is negative and their sum is below
`2 ^ 63`. -/
theorem C22_budgets_sum_bound (log : Nat → ℚ) (s : cache_t) (hC : 0 ≤ s.cache_size)
    (hC62 : s.cache_size ≤ 2 ^ 62)
    (hs : in_double_range s.s_ratio) (hm : in_double_range s.m_ratio)
    (hl : in_double_range s.lq_ratio) :
    ((DCP_check_and_adjust log s).fifo.cache_size =
        tier_budget s.cache_size (DCP_check_and_adjust log s).s_ratio ∧
      (DCP_check_and_adjust log s).main_cache.cache_size =
        tier_budget s.cache_size (DCP_check_and_adjust log s).m_ratio ∧
      (DCP_check_and_adjust log s).large_cache.cache_size =
        tier_budget s.cache_size (DCP_check_and_adjust log s).lq_ratio) ∧
    (s.cache_size ≤ 2 ^ 50 →
      (DCP_check_and_adjust log s).fifo.cache_size +
        (DCP_check_and_adjust log s).main_cache.cache_size +
        (DCP_check_and_adjust log s).large_cache.cache_size ≤ s.cache_size) ∧
    (((DCP_check_and_adjust log s).fifo.cache_size +
        (DCP_check_and_adjust log s).main_cache.cache_size +
        (DCP_check_and_adjust log s).large_cache.cache_size : Int) : ℚ) ≤
      (s.cache_size : ℚ) * (1 + 1 / 2 ^ 50) ∧
    (0 ≤ (DCP_check_and_adjust log s).fifo.cache_size ∧
      0 ≤ (DCP_check_and_adjust log s).main_cache.cache_size ∧
      0 ≤ (DCP_check_and_adjust log s).large_cache.cache_size) ∧
    (DCP_check_and_adjust log s).fifo.cache_size +
      (DCP_check_and_adjust log s).main_cache.cache_size +
      (DCP_check_and_adjust log s).large_cache.cache_size < 2 ^ 63 := by
  obtain ⟨-, e1, e2, e3, -, -, -, -, -, -, e11, e12, e13⟩ :=
    DCP_evictions_same_params log (DCP_budgets s)
  rw [← DCP_check_and_adjust_eq] at e1 e2 e3 e11 e12 e13
  obtain ⟨r1, r2, r3⟩ := DCP_budgets_ratios s
  obtain ⟨b1, b2, b3⟩ := DCP_budgets_sizes s
  have hcs : (DCP_budgets s).cache_size = s.cache_size := (DCP_budgets_frame s).1
  rw [hcs] at b1 b2 b3
  have f1 : (DCP_check_and_adjust log s).fifo.cache_size =
      tier_budget s.cache_size (DCP_check_and_adjust log s).s_ratio := by
    rw [e11, e1, b1]
  have f2 : (DCP_check_and_adjust log s).main_cache.cache_size =
      tier_budget s.cache_size (DCP_check_and_adjust log s).m_ratio := by
    rw [e12, e2, b2]
  have f3 : (DCP_check_and_adjust log s).large_cache.cache_size =
      tier_budget s.cache_size (DCP_check_and_adjust log s).lq_ratio := by
    rw [e13, e3, b3]
  have ha : 0 < s.s_ratio := lt_of_lt_of_le (by norm_num) hs.1
  have hb : 0 < s.m_ratio := lt_of_lt_of_le (by norm_num) hm.1
  have hc : 0 < s.lq_ratio := lt_of_lt_of_le (by norm_num) hl.1
  obtain ⟨p1, p2, p3, -, hhi⟩ := normalized_sum_bounds s.s_ratio s.m_ratio s.lq_ratio ha hb hc
  rw [← r1, ← e1] at p1
  rw [← r2, ← e2] at p2
  rw [← r3, ← e3] at p3
  rw [← r1, ← r2, ← r3, ← e1, ← e2, ← e3] at hhi
  have n1 := tier_budget_nonneg s.cache_size _ hC p1.le
  have n2 := tier_budget_nonneg s.cache_size _ hC p2.le
  have n3 := tier_budget_nonneg s.cache_size _ hC p3.le
  rw [← f1] at n1
  rw [← f2] at n2
  rw [← f3] at n3
  have t1 := tier_budget_le s.cache_size _ hC p1.le
  have t2 := tier_budget_le s.cache_size _ hC p2.le
  have t3 := tier_budget_le s.cache_size _ hC p3.le
  rw [← f1] at t1
  rw [← f2] at t2
  rw [← f3] at t3
  have hCq : (0 : ℚ) ≤ (s.cache_size : ℚ) := by exact_mod_cast hC
  have hprod : (s.cache_size : ℚ) * ((DCP_check_and_adjust log s).s_ratio +
      (DCP_check_and_adjust log s).m_ratio + (DCP_check_and_adjust log s).lq_ratio) ≤
      (s.cache_size : ℚ) * ((1 + 1 / 2 ^ 53) / (1 - 1 / 2 ^ 53) ^ 2) :=
    mul_le_mul_of_nonneg_left hhi hCq
  have hq : (((DCP_check_and_adjust log s).fifo.cache_size +
        (DCP_check_and_adjust log s).main_cache.cache_size +
        (DCP_check_and_adjust log s).large_cache.cache_size : Int) : ℚ) ≤
      (s.cache_size : ℚ) * ((1 + 1 / 2 ^ 53) ^ 3 / (1 - 1 / 2 ^ 53) ^ 2) := by
    push_cast
    norm_num at t1 t2 t3 hprod ⊢
    linarith
  refine ⟨⟨f1, f2, f3⟩, ?_, ?_, ⟨n1, n2, n3⟩, ?_⟩
  · intro hmax
    have hmaxq : (s.cache_size : ℚ) ≤ 2 ^ 50 := by exact_mod_cast hmax
    have hlt : (((DCP_check_and_adjust log s).fifo.cache_size +
        (DCP_check_and_adjust log s).main_cache.cache_size +
        (DCP_check_and_adjust log s).large_cache.cache_size : Int) : ℚ) <
        ((s.cache_size + 1 : Int) : ℚ) := by
      push_cast
      push_cast at hq
      norm_num at hq hmaxq ⊢
      linarith
    have hlt2 := Int.cast_lt.mp hlt
    omega
  · norm_num at hq ⊢
    linarith
  · have h62 : (s.cache_size : ℚ) ≤ 2 ^ 62 := by exact_mod_cast hC62
    have hlt : (((DCP_check_and_adjust log s).fifo.cache_size +
        (DCP_check_and_adjust log s).main_cache.cache_size +
        (DCP_check_and_adjust log s).large_cache.cache_size : Int) : ℚ) <
        (((2 : Int) ^ 63 : Int) : ℚ) := by
      push_cast
      push_cast at hq
      norm_num at hq h62 ⊢
      linarith
    exact Int.cast_lt.mp hlt

/-- C22 as amended, at a concrete input on which the pass changes the budgets: capacity
1000 and the ratios 0.05, 0.70, 0.05 (budgets 50, 700, 50 before the pass); the pass
installs the budgets 62, 874 and 62, which sum to 998. -/
theorem C22_budgets_sum_bound_witness :
    ((0 : Int) ≤ (S3FIFO_init_ratios 1000 (5 / 100) (70 / 100) (5 / 100)).cache_size ∧
      in_double_range (S3FIFO_init_ratios 1000 (5 / 100) (70 / 100) (5 / 100)).s_ratio ∧
      in_double_range (S3FIFO_init_ratios 1000 (5 / 100) (70 / 100) (5 / 100)).m_ratio ∧
      in_double_range (S3FIFO_init_ratios 1000 (5 / 100) (70 / 100) (5 / 100)).lq_ratio ∧
      (S3FIFO_init_ratios 1000 (5 / 100) (70 / 100) (5 / 100)).cache_size ≤ 2 ^ 50) ∧
    ((S3FIFO_init_ratios 1000 (5 / 100) (70 / 100) (5 / 100)).fifo.cache_size,
      (S3FIFO_init_ratios 1000 (5 / 100) (70 / 100) (5 / 100)).main_cache.cache_size,
      (S3FIFO_init_ratios 1000 (5 / 100) (70 / 100) (5 / 100)).large_cache.cache_size) =
      (50, 700, 50) ∧
    ((DCP_check_and_adjust log_floor
        (S3FIFO_init_ratios 1000 (5 / 100) (70 / 100) (5 / 100))).fifo.cache_size,
      (DCP_check_and_adjust log_floor
        (S3FIFO_init_ratios 1000 (5 / 100) (70 / 100) (5 / 100))).main_cache.cache_size,
      (DCP_check_and_adjust log_floor
        (S3FIFO_init_ratios 1000 (5 / 100) (70 / 100) (5 / 100))).large_cache.cache_size) =
      (62, 874, 62) ∧
    (DCP_check_and_adjust log_floor
        (S3FIFO_init_ratios 1000 (5 / 100) (70 / 100) (5 / 100))).fifo.cache_size +
      (DCP_check_and_adjust log_floor
        (S3FIFO_init_ratios 1000 (5 / 100) (70 / 100) (5 / 100))).main_cache.cache_size +
      (DCP_check_and_adjust log_floor
        (S3FIFO_init_ratios 1000 (5 / 100) (70 / 100) (5 / 100))).large_cache.cache_size ≤
      (S3FIFO_init_ratios 1000 (5 / 100) (70 / 100) (5 / 100)).cache_size :=
  ⟨⟨by decide!, by decide!, by decide!, by decide!, by decide!⟩, by decide!, by decide!,
   (C22_budgets_sum_bound log_floor (S3FIFO_init_ratios 1000 (5 / 100) (70 / 100) (5 / 100))
      (by decide!) (by decide!) (by decide!) (by decide!) (by decide!)).2.1 (by decide!)⟩
